import Mathlib

/-!
# BackrestTrayWatcher: the log scanner and the watch state

A shallow embedding of the scanning core of `src/main.cpp`:
`ContainsAlertKeyword`, `ScanFileRangeForAlerts`, `ResetWatcherAndRescan`,
`MonitorLogFileOnce`, `AcknowledgeAlert`, `ChooseLogPath` and the blink-timer
branch of `WindowProc`.

Conventions of the embedding.

* A byte is a `Nat`; file contents and strings are `List Byte`.
* `ULONGLONG` offsets are `Nat`.  The only arithmetic the code performs on them
  is `endOffset - beginOffset` (behind the guard `endOffset > beginOffset`) and
  `remaining -= bytesRead` (with `bytesRead <= toRead <= remaining`), so no
  operation of the model leaves the unsigned 64-bit range when its inputs are
  in it.  File sizes are the non-negative `LONGLONG` that `GetFileSizeEx`
  reports, here the length of the content.
* The Win32 calls are an explicit environment: `CreateFileW` yields
  `Option OpenFile`; an `OpenFile` carries the bytes of the file and the
  outcomes of `GetFileSizeEx`, `SetFilePointerEx` and of each `ReadFile`.
* Every function returns, next to its C++ result, the list of the calls it
  issued (`Event`), in program order.
-/

namespace BackrestTrayWatcher

set_option maxRecDepth 20000

/-! ## Environment -/

abbrev Byte := Nat

/-- Outcome of one `ReadFile` call: `fail` is a `FALSE` return; `ok n` is a
`TRUE` return in which the system is ready to deliver up to `n` bytes (the call
delivers no more than what was requested and what the file holds). -/
inductive ReadOutcome where
  | fail
  | ok (n : Nat)
  deriving DecidableEq, Repr

/-- A file opened by `CreateFileW`. -/
structure OpenFile where
  /-- the bytes of the file -/
  content : List Byte
  /-- does `GetFileSizeEx` succeed (it then reports `content.length`) -/
  sizeOk : Bool
  /-- does `SetFilePointerEx` succeed -/
  seekOk : Bool
  /-- the outcome of the `i`-th `ReadFile` call on this handle -/
  reads : Nat → ReadOutcome

/-- Calls issued by the code, in program order. -/
inductive Event where
  /-- `ScanFileRangeForAlerts(file, b, e)` was called -/
  | scan (b e : Nat)
  /-- `SetFilePointerEx(file, offset, nullptr, FILE_BEGIN)` -/
  | seek (offset : Nat)
  /-- `ReadFile(file, buffer, toRead, &bytesRead, nullptr)` -/
  | read (toRead : Nat)
  /-- `SaveAcknowledgedOffsetToConfig(offset)` -/
  | saveAck (offset : Nat)
  /-- `UpdateTrayIcon()`: the tooltip state and whether the alert icon is shown -/
  | updateTray (alert alertIcon : Bool)
  /-- `ShowAcknowledgeNotification()` -/
  | showAck
  deriving DecidableEq, Repr

/-! ## The scanner -/

/-- `kAlertKeyword = "\"logger\":"`, as bytes. -/
def kAlertKeyword : List Byte := [34, 108, 111, 103, 103, 101, 114, 34, 58]

/-- `std::string_view::find`, started at index `pos` of the original text:
the lowest index at which `needle` occurs, `none` for `npos`. -/
def findFrom (needle : List Byte) : List Byte → Nat → Option Nat
  | [], pos => if needle = [] then some pos else none
  | c :: cs, pos =>
    if needle.isPrefixOf (c :: cs) then some pos else findFrom needle cs (pos + 1)

/-- `text.find(needle)`. -/
def find (text needle : List Byte) : Option Nat := findFrom needle text 0

/-- `ContainsAlertKeyword`: `text.find(kAlertKeyword) != npos`. -/
def ContainsAlertKeyword (text : List Byte) : Bool :=
  (find text kAlertKeyword).isSome

/-- `kBufferSize = 64 * 1024`. -/
def kBufferSize : Nat := 64 * 1024

/-- `kOverlapSize = kAlertKeyword.size() > 0 ? kAlertKeyword.size() - 1 : 0`. -/
def kOverlapSize : Nat :=
  if kAlertKeyword.length > 0 then kAlertKeyword.length - 1 else 0

/-- Number of bytes a `ReadFile` call delivers: the file pointer is `pos`,
`toRead` bytes are requested and the system offers `n`. -/
def bytesDelivered (content : List Byte) (pos toRead n : Nat) : Nat :=
  min n (min toRead (content.length - pos))

/-- The new overlap buffer: the last `kOverlapSize` bytes of `chunk`, or all of
`chunk` when it is not longer than that. -/
def nextOverlap (chunk : List Byte) : List Byte :=
  if chunk.length > kOverlapSize then chunk.drop (chunk.length - kOverlapSize) else chunk

/-- The `while (remaining > 0)` loop of `ScanFileRangeForAlerts`.  `pos` is the
file pointer, `idx` the number of `ReadFile` calls issued on the handle so far,
`overlap` the overlap buffer.  Returns the function's result and the reads
issued.

The recursion is on `fuel`, an upper bound of the number of iterations left.
An iteration that continues lowers `remaining` by `bytesRead >= 1`, so the loop
is entered with `fuel = remaining` and the bound is never reached before
`remaining` is `0` (`scanLoop_fuel` below: the result is the same for every
`fuel >= remaining`). -/
def scanLoop (f : OpenFile) :
    (fuel remaining pos idx : Nat) → (overlap : List Byte) → Bool × List Event
  | 0, _, _, _, _ => (false, [])
  | fuel + 1, remaining, pos, idx, overlap =>
    if remaining > 0 then
      let toRead := min remaining kBufferSize
      match f.reads idx with
      | .fail => (false, [.read toRead])
      | .ok n =>
        let bytesRead := bytesDelivered f.content pos toRead n
        if bytesRead = 0 then (false, [.read toRead])
        else
          let chunk := overlap ++ (f.content.drop pos).take bytesRead
          if ContainsAlertKeyword chunk then (true, [.read toRead])
          else
            let r := scanLoop f fuel (remaining - bytesRead) (pos + bytesRead) (idx + 1)
              (nextOverlap chunk)
            (r.1, .read toRead :: r.2)
    else (false, [])

/-- `ScanFileRangeForAlerts(file, beginOffset, endOffset)`. -/
def ScanFileRangeForAlerts (f : OpenFile) (beginOffset endOffset : Nat) :
    Bool × List Event :=
  if endOffset ≤ beginOffset then (false, [])
  else if !f.seekOk then (false, [.seek beginOffset])
  else
    let remaining := endOffset - beginOffset
    let r := scanLoop f remaining remaining beginOffset 0 []
    (r.1, .seek beginOffset :: r.2)

/-! ## The watch state -/

/-- The fields of `AppState` (`g_state`) that the scanning core reads or writes. -/
structure AppState where
  acknowledgedOffset : Nat
  lastOffset : Nat
  hasAlert : Bool
  blinkShowAlertIcon : Bool
  deriving DecidableEq, Repr

/-- The process state: `g_state`, and the value stored under the key
`ack_offset` of the configuration file. -/
structure World where
  g_state : AppState
  ack_offset : Nat
  deriving DecidableEq, Repr

/-- `SaveAcknowledgedOffsetToConfig(offset)`.  The write to the configuration
file is taken to succeed (the code does not look at its result). -/
def SaveAcknowledgedOffsetToConfig (w : World) (offset : Nat) : World × List Event :=
  ({ w with ack_offset := offset }, [.saveAck offset])

/-- `RefreshTrayIconVisualState` chooses the alert icon iff
`hasAlert && blinkShowAlertIcon`. -/
def alertIconShown (s : AppState) : Bool :=
  s.hasAlert && s.blinkShowAlertIcon

/-- `UpdateTrayIcon()`. -/
def UpdateTrayIcon (w : World) : List Event :=
  [.updateTray w.g_state.hasAlert (alertIconShown w.g_state)]

/-- The block `if (g_state.acknowledgedOffset > size) { acknowledgedOffset = 0;
Save... }` that both `ResetWatcherAndRescan` and `MonitorLogFileOnce` contain. -/
def clampAcknowledgedOffset (w : World) (size : Nat) : World × List Event :=
  if w.g_state.acknowledgedOffset > size then
    SaveAcknowledgedOffsetToConfig
      { w with g_state := { w.g_state with acknowledgedOffset := 0 } } 0
  else (w, [])

/-- `ResetWatcherAndRescan()`; `file` is the result of `CreateFileW`
(`none` for `INVALID_HANDLE_VALUE`). -/
def ResetWatcherAndRescan (w : World) (file : Option OpenFile) : World × List Event :=
  let w0 : World :=
    { w with g_state :=
      { w.g_state with lastOffset := 0, hasAlert := false, blinkShowAlertIcon := true } }
  let r : World × List Event :=
    match file with
    | none => (w0, [])
    | some f =>
      if f.sizeOk && decide (f.content.length > 0) then
        let currentSize := f.content.length
        let c := clampAcknowledgedOffset w0 currentSize
        let sc := ScanFileRangeForAlerts f c.1.g_state.acknowledgedOffset currentSize
        ({ c.1 with g_state :=
            { c.1.g_state with hasAlert := sc.1, lastOffset := currentSize } },
          c.2 ++ Event.scan c.1.g_state.acknowledgedOffset currentSize :: sc.2)
      else (w0, [])
  (r.1, r.2 ++ UpdateTrayIcon r.1)

/-- The block `if (newSize < g_state.lastOffset) { ... }` of `MonitorLogFileOnce`.
The third component is `needIconRefresh`. -/
def monitorShrink (w : World) (newSize : Nat) : World × List Event × Bool :=
  if newSize < w.g_state.lastOffset then
    let c := clampAcknowledgedOffset w newSize
    ({ c.1 with g_state :=
        { c.1.g_state with lastOffset := 0, hasAlert := false, blinkShowAlertIcon := true } },
      c.2, true)
  else (w, [], false)

/-- The block `if (newSize > g_state.lastOffset) { ... }` of `MonitorLogFileOnce`,
entered with the current value of `needIconRefresh`. -/
def monitorGrow (w : World) (f : OpenFile) (newSize : Nat) (needIconRefresh : Bool) :
    World × List Event × Bool :=
  if newSize > w.g_state.lastOffset then
    let sc := ScanFileRangeForAlerts f w.g_state.lastOffset newSize
    let a : World × Bool :=
      if sc.1 then
        if !w.g_state.hasAlert then
          ({ w with g_state :=
              { w.g_state with hasAlert := true, blinkShowAlertIcon := true } }, true)
        else (w, needIconRefresh)
      else (w, needIconRefresh)
    ({ a.1 with g_state := { a.1.g_state with lastOffset := newSize } },
      Event.scan w.g_state.lastOffset newSize :: sc.2, a.2)
  else (w, [], needIconRefresh)

/-- `MonitorLogFileOnce()`; `file` is the result of `CreateFileW`. -/
def MonitorLogFileOnce (w : World) (file : Option OpenFile) : World × List Event :=
  match file with
  | none =>
    let a : World × List Event :=
      if w.g_state.hasAlert then
        let w1 : World :=
          { w with g_state :=
            { w.g_state with hasAlert := false, blinkShowAlertIcon := true } }
        (w1, UpdateTrayIcon w1)
      else (w, [])
    ({ a.1 with g_state := { a.1.g_state with lastOffset := 0 } }, a.2)
  | some f =>
    if !f.sizeOk then (w, [])
    else
      let newSize := f.content.length
      let s := monitorShrink w newSize
      let g := monitorGrow s.1 f newSize s.2.2
      (g.1, s.2.1 ++ g.2.1 ++ (if g.2.2 then UpdateTrayIcon g.1 else []))

/-- `AcknowledgeAlert()`. -/
def AcknowledgeAlert (w : World) : World × List Event :=
  let w1 : World :=
    { w with g_state := { w.g_state with acknowledgedOffset := w.g_state.lastOffset } }
  let s := SaveAcknowledgedOffsetToConfig w1 w1.g_state.acknowledgedOffset
  let w2 : World :=
    { s.1 with g_state :=
      { s.1.g_state with hasAlert := false, blinkShowAlertIcon := true } }
  (w2, s.2 ++ UpdateTrayIcon w2 ++ [.showAck])

/-! ## What the claims speak about -/

/-- The marker occurs in `content` with its first byte at index `i`. -/
def MarkerAt (content : List Byte) (i : Nat) : Prop :=
  (content.drop i).take kAlertKeyword.length = kAlertKeyword

instance (content : List Byte) (i : Nat) : Decidable (MarkerAt content i) := by
  unfold MarkerAt; infer_instance

/-- The marker occurs as a contiguous byte substring lying wholly inside the
bytes `[b, e)` of `content`. -/
def MarkerIn (content : List Byte) (b e : Nat) : Prop :=
  ∃ i, i < e ∧ (b ≤ i ∧ i + kAlertKeyword.length ≤ e ∧ MarkerAt content i)

instance (content : List Byte) (b e : Nat) : Decidable (MarkerIn content b e) := by
  unfold MarkerIn; infer_instance

/-- The invariant `acknowledgedOffset <= lastOffset`. -/
def AckLeLast (w : World) : Prop :=
  w.g_state.acknowledgedOffset ≤ w.g_state.lastOffset

instance (w : World) : Decidable (AckLeLast w) := by
  unfold AckLeLast; infer_instance

/-- The bytes `[a, b)` of `content`. -/
def slice (content : List Byte) (a b : Nat) : List Byte :=
  (content.drop a).take (b - a)

/-- Scan traffic: the calls that touch the log file. -/
def Event.touchesFile : Event → Bool
  | .scan _ _ => true
  | .seek _ => true
  | .read _ => true
  | _ => false

/-! ## The scan loop, iteration by iteration -/

/-- What one pass through the body of the `while (remaining > 0)` loop saw and
did: the values of `remaining`, of the file pointer and of the overlap buffer on
entry, the size of the read requested, whether `ReadFile` returned `TRUE`, the
value of `bytesRead` (0 after a failed read) and whether the assembled
`overlap + chunk` contained the marker. -/
structure Iteration where
  remaining : Nat
  pos : Nat
  overlap : List Byte
  toRead : Nat
  readOk : Bool
  bytesRead : Nat
  found : Bool
  deriving DecidableEq, Repr

/-- The loop of `ScanFileRangeForAlerts` once more, returning the record of
every iteration it runs (`scanLoop_eq_iterations` below: `scanLoop` returns
`true` iff an iteration found the marker, and issues one read per iteration). -/
def scanIterations (f : OpenFile) :
    (fuel remaining pos idx : Nat) → (overlap : List Byte) → List Iteration
  | 0, _, _, _, _ => []
  | fuel + 1, remaining, pos, idx, overlap =>
    if remaining > 0 then
      let toRead := min remaining kBufferSize
      match f.reads idx with
      | .fail =>
        [{ remaining := remaining, pos := pos, overlap := overlap, toRead := toRead,
           readOk := false, bytesRead := 0, found := false }]
      | .ok n =>
        let bytesRead := bytesDelivered f.content pos toRead n
        if bytesRead = 0 then
          [{ remaining := remaining, pos := pos, overlap := overlap, toRead := toRead,
             readOk := true, bytesRead := 0, found := false }]
        else
          let chunk := overlap ++ (f.content.drop pos).take bytesRead
          if ContainsAlertKeyword chunk then
            [{ remaining := remaining, pos := pos, overlap := overlap, toRead := toRead,
               readOk := true, bytesRead := bytesRead, found := true }]
          else
            { remaining := remaining, pos := pos, overlap := overlap, toRead := toRead,
              readOk := true, bytesRead := bytesRead, found := false } ::
            scanIterations f fuel (remaining - bytesRead) (pos + bytesRead) (idx + 1)
              (nextOverlap chunk)
    else []

/-- The iterations of the loop of `ScanFileRangeForAlerts(file, b, e)`, for a
call that gets as far as the loop. -/
def iterationsOf (f : OpenFile) (b e : Nat) : List Iteration :=
  scanIterations f (e - b) (e - b) b 0 []

/-- The iteration ended the scan by a failure: `ReadFile` returned `FALSE`, or
it delivered no byte. -/
def Iteration.failed (it : Iteration) : Bool :=
  !it.readOk || decide (it.bytesRead = 0)

/-- An iteration `a` is followed by an iteration `c`: `a` read at least one byte
and found nothing, and `c` starts where `a` stopped. -/
def Iteration.continuesTo (a c : Iteration) : Prop :=
  a.readOk = true ∧ 1 ≤ a.bytesRead ∧ a.found = false ∧
  a.bytesRead ≤ a.remaining ∧ c.remaining = a.remaining - a.bytesRead ∧
  c.remaining < a.remaining ∧ c.pos = a.pos + a.bytesRead

/-- The scan `ScanFileRangeForAlerts(file, b, e)` was abandoned: the seek failed,
or a read failed or delivered no byte. -/
def scanAbandoned (f : OpenFile) (b e : Nat) : Bool :=
  decide (b < e) && (!f.seekOk || (iterationsOf f b e).any Iteration.failed)

/-- Number of bytes the scan `ScanFileRangeForAlerts(file, b, e)` actually read. -/
def bytesActuallyRead (f : OpenFile) (b e : Nat) : Nat :=
  if b < e ∧ f.seekOk = true then ((iterationsOf f b e).map Iteration.bytesRead).sum else 0

/-- The ranges `(b, e)` of the calls `ScanFileRangeForAlerts(file, b, e)` in a
list of events. -/
def scanRanges : List Event → List (Nat × Nat)
  | [] => []
  | .scan b e :: rest => (b, e) :: scanRanges rest
  | _ :: rest => scanRanges rest

/-! ## Sequences of operations -/

/-- Successive incremental ticks, one per element of `files` (what `CreateFileW`
returns at that tick): the final state and the events of each tick. -/
def runTicks : World → List (Option OpenFile) → World × List (List Event)
  | w, [] => (w, [])
  | w, file :: rest =>
    let r := MonitorLogFileOnce w file
    let rs := runTicks r.1 rest
    (rs.1, r.2 :: rs.2)

/-- The `kBlinkTimerId` branch of `WM_TIMER` in `WindowProc`. -/
def OnBlinkTimer (w : World) : World × List Event :=
  if w.g_state.hasAlert then
    let w1 : World :=
      { w with g_state :=
        { w.g_state with blinkShowAlertIcon := !w.g_state.blinkShowAlertIcon } }
    (w1, UpdateTrayIcon w1)
  else if !w.g_state.blinkShowAlertIcon then
    let w1 : World := { w with g_state := { w.g_state with blinkShowAlertIcon := true } }
    (w1, UpdateTrayIcon w1)
  else (w, [])

/-- `ChooseLogPath()`.  `chosen` is `none` when `GetOpenFileNameW` returns
`FALSE` (the dialog was cancelled), otherwise what `CreateFileW` returns for the
path chosen. -/
def ChooseLogPath (w : World) (chosen : Option (Option OpenFile)) : World × List Event :=
  match chosen with
  | none => (w, [])
  | some file =>
    let w1 : World := { w with g_state := { w.g_state with acknowledgedOffset := 0 } }
    let s := SaveAcknowledgedOffsetToConfig w1 w1.g_state.acknowledgedOffset
    let r := ResetWatcherAndRescan s.1 file
    (r.1, s.2 ++ r.2)

/-- The operations that change the watch state, each with what the file system
answers. -/
inductive Op where
  /-- `ResetWatcherAndRescan()` -/
  | rescan (file : Option OpenFile)
  /-- `WM_TIMER` with `kMonitorTimerId`: `MonitorLogFileOnce()` -/
  | tick (file : Option OpenFile)
  /-- `AcknowledgeAlert()` -/
  | acknowledge
  /-- `ChooseLogPath()` -/
  | choosePath (chosen : Option (Option OpenFile))
  /-- `WM_TIMER` with `kBlinkTimerId` -/
  | blink

/-- One operation. -/
def applyOp (w : World) : Op → World × List Event
  | .rescan file => ResetWatcherAndRescan w file
  | .tick file => MonitorLogFileOnce w file
  | .acknowledge => AcknowledgeAlert w
  | .choosePath chosen => ChooseLogPath w chosen
  | .blink => OnBlinkTimer w

/-- The state after a sequence of operations. -/
def runOps : World → List Op → World
  | w, [] => w
  | w, op :: rest => runOps (applyOp w op).1 rest

/-- The state of `g_state` when `wWinMain` starts the message loop's set-up:
`hasAlert = false`, `blinkShowAlertIcon = true`, `lastOffset = 0`, and the
acknowledged offset loaded from the configuration file. -/
def startWorld (ack : Nat) : World :=
  { g_state := { acknowledgedOffset := ack, lastOffset := 0, hasAlert := false,
                 blinkShowAlertIcon := true },
    ack_offset := ack }

/-- The size seen by the last of successive ticks that see the sizes `sizes`,
`prev` when there is no tick. -/
def finalSize : Nat → List Nat → Nat
  | prev, [] => prev
  | _, s :: rest => finalSize s rest

/-- The ranges property P3 of the specification expects, tick by tick, when
successive ticks see the sizes `sizes` and the first starts from
`lastOffset = prev`: a tick that sees `s` after `prev` asks for `[prev, s)` when
`s > prev` and for nothing otherwise. -/
def growthRanges : Nat → List Nat → List (List (Nat × Nat))
  | _, [] => []
  | prev, s :: rest => (if s > prev then [(prev, s)] else []) :: growthRanges s rest

/-- The blink flag is set whenever no alert is pending. -/
def BlinkRests (w : World) : Prop :=
  w.g_state.hasAlert = false → w.g_state.blinkShowAlertIcon = true

/-! ## Concrete inputs used by the examples -/

/-- The state at start-up with nothing acknowledged. -/
def initialWorld : World :=
  { g_state := { acknowledgedOffset := 0, lastOffset := 0, hasAlert := false,
                 blinkShowAlertIcon := true },
    ack_offset := 0 }

/-- A 14-byte file holding the marker at bytes `[3, 12)`, on a handle whose
reads deliver at most 4 bytes each: the marker is spread over three reads. -/
def splitFile : OpenFile :=
  { content := [1, 2, 3] ++ kAlertKeyword ++ [7, 7],
    sizeOk := true, seekOk := true, reads := fun _ => .ok 4 }

/-- A state with `lastOffset = 1000`, `acknowledgedOffset = 500` and an alert
pending. -/
def w1000 : World :=
  { g_state := { acknowledgedOffset := 500, lastOffset := 1000, hasAlert := true,
                 blinkShowAlertIcon := false },
    ack_offset := 500 }

/-- A 200-byte file with the marker at bytes `[100, 109)`. -/
def f200 : OpenFile :=
  { content := List.replicate 100 0 ++ kAlertKeyword ++ List.replicate 91 0,
    sizeOk := true, seekOk := true, reads := fun _ => .ok 65536 }

/-- A 600-byte file: the bytes of `f200`, then 400 bytes without the marker. -/
def f600 : OpenFile :=
  { content := List.replicate 100 0 ++ kAlertKeyword ++ List.replicate 491 0,
    sizeOk := true, seekOk := true, reads := fun _ => .ok 65536 }

/-- An empty file. -/
def emptyFile : OpenFile :=
  { content := [], sizeOk := true, seekOk := true, reads := fun _ => .ok 65536 }

/-- The log at the first tick: five bytes, no marker. -/
def tick1File : OpenFile :=
  { content := [97, 98, 99, 100, 10],
    sizeOk := true, seekOk := true, reads := fun _ => .ok 65536 }

/-- The log at the second tick: the five bytes of `tick1File`, then the marker. -/
def tick2File : OpenFile :=
  { content := [97, 98, 99, 100, 10] ++ kAlertKeyword,
    sizeOk := true, seekOk := true, reads := fun _ => .ok 65536 }

/-- The log when its last write was cut inside the marker: the five bytes of
`tick1File`, then the first four bytes of the marker. -/
def cutFile : OpenFile :=
  { content := [97, 98, 99, 100, 10] ++ kAlertKeyword.take 4,
    sizeOk := true, seekOk := true, reads := fun _ => .ok 65536 }

/-- A state with `acknowledgedOffset = 150`, `lastOffset = 1000` and no alert
pending. -/
def w150 : World :=
  { g_state := { acknowledgedOffset := 150, lastOffset := 1000, hasAlert := false,
                 blinkShowAlertIcon := true },
    ack_offset := 150 }

/-- The bytes of `tick2File` on a handle whose seek fails. -/
def seekFailFile : OpenFile :=
  { content := [97, 98, 99, 100, 10] ++ kAlertKeyword,
    sizeOk := true, seekOk := false, reads := fun _ => .ok 65536 }

/-- The bytes of `splitFile` on a handle whose reads deliver 4 bytes each and
whose second read fails. -/
def readFailFile : OpenFile :=
  { content := [1, 2, 3] ++ kAlertKeyword ++ [7, 7],
    sizeOk := true, seekOk := true,
    reads := fun i => if i = 1 then .fail else .ok 4 }

/-! ## Lemmas on slices and on `find` -/

theorem kAlertKeyword_length : kAlertKeyword.length = 9 := rfl

theorem kOverlapSize_eq : kOverlapSize = 8 := rfl

theorem slice_length (c : List Byte) (a b : Nat) (hb : b ≤ c.length) :
    (slice c a b).length = b - a := by
  simp [slice]; omega

theorem slice_self (c : List Byte) (a : Nat) : slice c a a = [] := by
  simp [slice]

theorem slice_append_take (c : List Byte) (a p k : Nat) (hap : a ≤ p) :
    slice c a p ++ (c.drop p).take k = slice c a (p + k) := by
  unfold slice
  have h1 : p + k - a = (p - a) + k := by omega
  have h2 : p = a + (p - a) := by omega
  rw [h1, List.take_add, List.drop_drop]
  congr 3

theorem slice_drop (c : List Byte) (a b d : Nat) :
    (slice c a b).drop d = slice c (a + d) b := by
  unfold slice
  rw [List.drop_take, List.drop_drop]
  congr 1
  omega

theorem markerAt_slice (c : List Byte) (a b j : Nat) (h : j + 9 ≤ b - a) :
    MarkerAt (slice c a b) j ↔ MarkerAt c (a + j) := by
  unfold MarkerAt
  rw [slice_drop, kAlertKeyword_length]
  unfold slice
  rw [List.take_take]
  have : min 9 (b - (a + j)) = 9 := by omega
  rw [this]

theorem markerAt_length (c : List Byte) (i : Nat) (h : MarkerAt c i) :
    i + 9 ≤ c.length := by
  unfold MarkerAt at h
  have h2 := congrArg List.length h
  simp [kAlertKeyword_length] at h2
  omega

theorem findFrom_isSome (needle : List Byte) :
    ∀ (text : List Byte) (pos : Nat),
      (findFrom needle text pos).isSome = true ↔
        ∃ j, (text.drop j).take needle.length = needle := by
  intro text
  induction text with
  | nil =>
    intro pos
    by_cases hn : needle = []
    · simp [findFrom, hn]
    · simp [findFrom, hn]
  | cons c cs ih =>
    intro pos
    by_cases hp : needle.isPrefixOf (c :: cs) = true
    · simp only [findFrom, hp, if_true, Option.isSome_some, true_iff]
      refine ⟨0, ?_⟩
      rw [List.isPrefixOf_iff_prefix, List.prefix_iff_eq_take] at hp
      simpa using hp.symm
    · simp only [findFrom, hp, if_false, Bool.false_eq_true]
      rw [ih (pos + 1)]
      constructor
      · rintro ⟨j, hj⟩
        exact ⟨j + 1, by simpa using hj⟩
      · rintro ⟨j, hj⟩
        cases j with
        | zero =>
          exfalso
          apply hp
          rw [List.isPrefixOf_iff_prefix, List.prefix_iff_eq_take]
          simpa using hj.symm
        | succ j => exact ⟨j, by simpa using hj⟩

theorem containsAlertKeyword_iff (text : List Byte) :
    ContainsAlertKeyword text = true ↔ ∃ j, MarkerAt text j := by
  unfold ContainsAlertKeyword find MarkerAt
  exact findFrom_isSome kAlertKeyword text 0

/-! ## The scan loop -/

theorem bytesDelivered_le (c : List Byte) (pos remaining n : Nat) :
    bytesDelivered c pos (min remaining kBufferSize) n ≤ remaining ∧
    bytesDelivered c pos (min remaining kBufferSize) n ≤ kBufferSize ∧
    bytesDelivered c pos (min remaining kBufferSize) n ≤ n ∧
    pos + bytesDelivered c pos (min remaining kBufferSize) n ≤ max pos c.length := by
  unfold bytesDelivered
  omega

theorem bytesDelivered_pos (c : List Byte) (pos remaining n : Nat) (hn : 1 ≤ n)
    (hrem : 0 < remaining) (hlen : pos + remaining ≤ c.length) :
    1 ≤ bytesDelivered c pos (min remaining kBufferSize) n := by
  unfold bytesDelivered kBufferSize
  omega

theorem nextOverlap_slice (c : List Byte) (lo hi : Nat) (hlo : lo ≤ hi)
    (hhi : hi ≤ c.length) :
    nextOverlap (slice c lo hi) =
      slice c (if hi - lo > kOverlapSize then hi - kOverlapSize else lo) hi := by
  unfold nextOverlap
  rw [slice_length c lo hi hhi]
  by_cases h : hi - lo > kOverlapSize
  · rw [if_pos h, if_pos h, slice_drop]
    congr 1
    omega
  · rw [if_neg h, if_neg h]

theorem scanLoop_zero (f : OpenFile) (remaining pos idx : Nat) (overlap : List Byte) :
    scanLoop f 0 remaining pos idx overlap = (false, []) := rfl

theorem scanLoop_succ (f : OpenFile) (fuel remaining pos idx : Nat) (overlap : List Byte) :
    scanLoop f (fuel + 1) remaining pos idx overlap =
      if remaining > 0 then
        match f.reads idx with
        | .fail => (false, [.read (min remaining kBufferSize)])
        | .ok n =>
          if bytesDelivered f.content pos (min remaining kBufferSize) n = 0 then
            (false, [.read (min remaining kBufferSize)])
          else if ContainsAlertKeyword
              (overlap ++ (f.content.drop pos).take
                (bytesDelivered f.content pos (min remaining kBufferSize) n)) then
            (true, [.read (min remaining kBufferSize)])
          else
            ((scanLoop f fuel
                (remaining - bytesDelivered f.content pos (min remaining kBufferSize) n)
                (pos + bytesDelivered f.content pos (min remaining kBufferSize) n) (idx + 1)
                (nextOverlap (overlap ++ (f.content.drop pos).take
                  (bytesDelivered f.content pos (min remaining kBufferSize) n)))).1,
              .read (min remaining kBufferSize) ::
              (scanLoop f fuel
                (remaining - bytesDelivered f.content pos (min remaining kBufferSize) n)
                (pos + bytesDelivered f.content pos (min remaining kBufferSize) n) (idx + 1)
                (nextOverlap (overlap ++ (f.content.drop pos).take
                  (bytesDelivered f.content pos (min remaining kBufferSize) n)))).2)
      else (false, []) := rfl

/-- Soundness of the loop: when the overlap buffer holds the bytes `[lo, pos)`
of the file, a `true` result comes from an occurrence of the marker that lies
in `[lo, pos + remaining)`. -/
theorem scanLoop_sound (f : OpenFile) :
    ∀ (fuel remaining pos idx lo : Nat) (overlap : List Byte),
      lo ≤ pos → overlap = slice f.content lo pos →
      (scanLoop f fuel remaining pos idx overlap).1 = true →
      ∃ i, lo ≤ i ∧ i + 9 ≤ pos + remaining ∧ MarkerAt f.content i := by
  intro fuel
  induction fuel with
  | zero =>
    intro remaining pos idx lo overlap _ _ h
    simp [scanLoop_zero] at h
  | succ fuel ih =>
    intro remaining pos idx lo overlap hlo hov h
    rw [scanLoop_succ] at h
    by_cases hrem : remaining > 0
    · rw [if_pos hrem] at h
      cases hr : f.reads idx with
      | fail => rw [hr] at h; simp at h
      | ok n =>
        rw [hr] at h
        simp only at h
        have hb := bytesDelivered_le f.content pos remaining n
        generalize bytesDelivered f.content pos (min remaining kBufferSize) n = k at h hb
        by_cases hz : k = 0
        · rw [if_pos hz] at h; simp at h
        · rw [if_neg hz] at h
          have hposk : pos + k ≤ f.content.length := by omega
          have hchunk : overlap ++ (f.content.drop pos).take k
              = slice f.content lo (pos + k) := by
            rw [hov]; exact slice_append_take f.content lo pos k hlo
          rw [hchunk] at h
          by_cases hc : ContainsAlertKeyword (slice f.content lo (pos + k)) = true
          · obtain ⟨j, hj⟩ := (containsAlertKeyword_iff _).1 hc
            have hjl := markerAt_length _ _ hj
            rw [slice_length _ _ _ hposk] at hjl
            refine ⟨lo + j, by omega, by omega, ?_⟩
            exact (markerAt_slice f.content lo (pos + k) j hjl).1 hj
          · rw [if_neg hc] at h
            rw [nextOverlap_slice f.content lo (pos + k) (by omega) hposk] at h
            obtain ⟨i, h1, h2, h3⟩ := ih _ _ _ _ _ (by split <;> omega) rfl h
            refine ⟨i, ?_, by omega, h3⟩
            split at h1 <;> omega
    · rw [if_neg hrem] at h; simp at h

/-- Completeness of the loop: when every read succeeds and offers at least one
byte, the range lies inside the file and the overlap buffer holds the bytes
`[lo, pos)` with `pos - kOverlapSize <= lo`, an occurrence of the marker in
`[lo, pos + remaining)` makes the loop return `true`. -/
theorem scanLoop_complete (f : OpenFile)
    (hreads : ∀ i, ∃ n, 1 ≤ n ∧ f.reads i = ReadOutcome.ok n) :
    ∀ (fuel remaining pos idx lo i : Nat) (overlap : List Byte),
      remaining ≤ fuel → lo ≤ pos → pos - kOverlapSize ≤ lo →
      overlap = slice f.content lo pos → pos + remaining ≤ f.content.length →
      lo ≤ i → i + 9 ≤ pos + remaining → MarkerAt f.content i →
      (scanLoop f fuel remaining pos idx overlap).1 = true := by
  intro fuel
  induction fuel with
  | zero =>
    intro remaining pos idx lo i overlap hf hlo hov8 _ _ hi1 hi2 _
    rw [kOverlapSize_eq] at hov8
    omega
  | succ fuel ih =>
    intro remaining pos idx lo i overlap hf hlo hov8 hov hlen hi1 hi2 hm
    have h8 := kOverlapSize_eq
    rw [scanLoop_succ]
    have hrem : remaining > 0 := by omega
    rw [if_pos hrem]
    obtain ⟨n, hn, hr⟩ := hreads idx
    rw [hr]
    simp only
    have hb := bytesDelivered_le f.content pos remaining n
    have hp := bytesDelivered_pos f.content pos remaining n hn hrem hlen
    generalize bytesDelivered f.content pos (min remaining kBufferSize) n = k at hb hp
    rw [if_neg (by omega)]
    have hposk : pos + k ≤ f.content.length := by omega
    have hchunk : overlap ++ (f.content.drop pos).take k
        = slice f.content lo (pos + k) := by
      rw [hov]; exact slice_append_take f.content lo pos k hlo
    rw [hchunk]
    by_cases hc : ContainsAlertKeyword (slice f.content lo (pos + k)) = true
    · rw [if_pos hc]
    · rw [if_neg hc]
      simp only
      by_cases hin : i + 9 ≤ pos + k
      · exfalso
        apply hc
        rw [containsAlertKeyword_iff]
        refine ⟨i - lo, ?_⟩
        rw [markerAt_slice f.content lo (pos + k) (i - lo) (by omega)]
        have : lo + (i - lo) = i := by omega
        rw [this]; exact hm
      · rw [nextOverlap_slice f.content lo (pos + k) (by omega) hposk]
        exact ih (remaining - k) (pos + k) (idx + 1)
          (if pos + k - lo > kOverlapSize then pos + k - kOverlapSize else lo) i _
          (by omega) (by split <;> omega) (by split <;> omega) rfl (by omega)
          (by split <;> omega) (by omega) hm

/-- The result of the loop does not depend on `fuel` once `fuel >= remaining`:
the bound on the number of iterations is never what ends the loop. -/
theorem scanLoop_fuel (f : OpenFile) :
    ∀ (fuel fuel2 remaining pos idx : Nat) (overlap : List Byte),
      remaining ≤ fuel → remaining ≤ fuel2 →
      scanLoop f fuel remaining pos idx overlap = scanLoop f fuel2 remaining pos idx overlap := by
  intro fuel
  induction fuel with
  | zero =>
    intro fuel2 remaining pos idx overlap h1 _
    have hr : ¬ remaining > 0 := by omega
    cases fuel2 with
    | zero => rfl
    | succ m => rw [scanLoop_zero, scanLoop_succ, if_neg hr]
  | succ fuel ih =>
    intro fuel2 remaining pos idx overlap h1 h2
    cases fuel2 with
    | zero =>
      have hr : ¬ remaining > 0 := by omega
      rw [scanLoop_zero, scanLoop_succ, if_neg hr]
    | succ m =>
      rw [scanLoop_succ, scanLoop_succ]
      by_cases hrem : remaining > 0
      · rw [if_pos hrem, if_pos hrem]
        cases hr : f.reads idx with
        | fail => rfl
        | ok n =>
          simp only
          have hb := bytesDelivered_le f.content pos remaining n
          generalize bytesDelivered f.content pos (min remaining kBufferSize) n = k at hb
          by_cases hz : k = 0
          · rw [if_pos hz, if_pos hz]
          · rw [if_neg hz, if_neg hz]
            rw [ih m (remaining - k) (pos + k) (idx + 1) _ (by omega) (by omega)]
      · rw [if_neg hrem, if_neg hrem]

/-- A `true` result of `ScanFileRangeForAlerts` comes from an occurrence of the
marker inside `[b, e)`. -/
theorem scan_true_markerIn (f : OpenFile) (b e : Nat)
    (h : (ScanFileRangeForAlerts f b e).1 = true) : MarkerIn f.content b e := by
  unfold ScanFileRangeForAlerts at h
  by_cases hbe : e ≤ b
  · rw [if_pos hbe] at h; simp at h
  · rw [if_neg hbe] at h
    by_cases hs : (!f.seekOk) = true
    · rw [if_pos hs] at h; simp at h
    · rw [if_neg hs] at h
      simp only at h
      obtain ⟨i, h1, h2, h3⟩ :=
        scanLoop_sound f (e - b) (e - b) b 0 b [] (Nat.le_refl b) (slice_self _ _).symm h
      exact ⟨i, by omega, h1, by rw [kAlertKeyword_length]; omega, h3⟩

/-- With a successful seek and reads that all succeed with at least one byte
on offer, an occurrence of the marker inside `[b, e)` is found. -/
theorem scan_markerIn_true (f : OpenFile) (b e : Nat) (he : e ≤ f.content.length)
    (hseek : f.seekOk = true)
    (hreads : ∀ i, ∃ n, 1 ≤ n ∧ f.reads i = ReadOutcome.ok n)
    (hocc : MarkerIn f.content b e) :
    (ScanFileRangeForAlerts f b e).1 = true := by
  obtain ⟨i, _, h1, h2, h3⟩ := hocc
  rw [kAlertKeyword_length] at h2
  unfold ScanFileRangeForAlerts
  rw [if_neg (by omega)]
  rw [if_neg (by simp [hseek])]
  simp only
  exact scanLoop_complete f hreads (e - b) (e - b) b 0 b i [] (Nat.le_refl _)
    (Nat.le_refl _) (by omega) (slice_self _ _).symm (by omega) h1 (by omega) h3

/-- Under the same conditions the scanner decides `MarkerIn`. -/
theorem scan_eq_markerIn (f : OpenFile) (b e : Nat) (he : e ≤ f.content.length)
    (hseek : f.seekOk = true)
    (hreads : ∀ i, ∃ n, 1 ≤ n ∧ f.reads i = ReadOutcome.ok n) :
    (ScanFileRangeForAlerts f b e).1 = decide (MarkerIn f.content b e) := by
  by_cases h : MarkerIn f.content b e
  · rw [scan_markerIn_true f b e he hseek hreads h]; simp [h]
  · have : (ScanFileRangeForAlerts f b e).1 ≠ true := fun ht => h (scan_true_markerIn f b e ht)
    simp [h, this]

/-! ## The scanner: claims C1 to C3 -/

/-- Claim C1: `ScanFileRangeForAlerts` misses no marker.  For every file content,
every range `[b, e)` with `b < e <= file size`, a successful seek and every
sequence of successful reads that each deliver at least one byte (and at most
`min(remaining, 65536)`, which `bytesDelivered` enforces), if the marker occurs
wholly inside `[b, e)` the function returns `true`, however the occurrence is
split over consecutive reads. -/
theorem ScanFileRangeForAlerts_complete (f : OpenFile) (b e : Nat)
    (_hbe : b < e) (he : e ≤ f.content.length) (hseek : f.seekOk = true)
    (hreads : ∀ i, ∃ n, 1 ≤ n ∧ f.reads i = ReadOutcome.ok n)
    (hocc : ∃ i, b ≤ i ∧ i + kAlertKeyword.length ≤ e ∧
      (f.content.drop i).take kAlertKeyword.length = kAlertKeyword) :
    (ScanFileRangeForAlerts f b e).1 = true := by
  obtain ⟨i, h1, h2, h3⟩ := hocc
  exact scan_markerIn_true f b e he hseek hreads
    ⟨i, by rw [kAlertKeyword_length] at h2; omega, h1, h2, h3⟩

/-- The marker of `splitFile` lies across three reads of 4 bytes and is found. -/
theorem ScanFileRangeForAlerts_complete_witness :
    ScanFileRangeForAlerts splitFile 0 14 =
      (true, [Event.seek 0, Event.read 14, Event.read 10, Event.read 6]) ∧
    (ScanFileRangeForAlerts splitFile 0 14).1 = true :=
  ⟨by decide,
    ScanFileRangeForAlerts_complete splitFile 0 14 (by decide) (by decide) rfl
      (fun _ => ⟨4, by decide, rfl⟩) ⟨3, by decide, by decide, by decide⟩⟩

/-- Claim C2: `ScanFileRangeForAlerts` is sound.  For every file, every range
`[b, e)` and every behaviour of the seek and of the reads, a `true` result means
that the marker occurs as a contiguous byte substring of the file lying wholly
inside `[b, e)`; an occurrence only partly inside the range, or bytes of the
overlap buffer that are not in the file, never produce `true`. -/
theorem ScanFileRangeForAlerts_sound (f : OpenFile) (b e : Nat)
    (h : (ScanFileRangeForAlerts f b e).1 = true) :
    ∃ i, b ≤ i ∧ i + kAlertKeyword.length ≤ e ∧
      (f.content.drop i).take kAlertKeyword.length = kAlertKeyword := by
  obtain ⟨i, _, h1, h2, h3⟩ := scan_true_markerIn f b e h
  exact ⟨i, h1, h2, h3⟩

/-- The scan of `splitFile` over `[0, 14)` returns `true`, and the marker is
there (at bytes `[3, 12)`); the ranges `[4, 14)` and `[0, 11)` hold it only in
part and give `false`. -/
theorem ScanFileRangeForAlerts_sound_witness :
    (ScanFileRangeForAlerts splitFile 0 14).1 = true ∧
    (∃ i, 0 ≤ i ∧ i + kAlertKeyword.length ≤ 14 ∧
      (splitFile.content.drop i).take kAlertKeyword.length = kAlertKeyword) ∧
    (ScanFileRangeForAlerts splitFile 4 14).1 = false ∧
    (ScanFileRangeForAlerts splitFile 0 11).1 = false :=
  ⟨by decide, ScanFileRangeForAlerts_sound splitFile 0 14 (by decide), by decide, by decide⟩

/-- Claim C3: for every file and all offsets with `e <= b`,
`ScanFileRangeForAlerts(file, b, e)` returns `false` and issues no call at all on
the file (no seek, no read). -/
theorem ScanFileRangeForAlerts_empty_range (f : OpenFile) (b e : Nat) (h : e ≤ b) :
    ScanFileRangeForAlerts f b e = (false, []) := by
  unfold ScanFileRangeForAlerts
  rw [if_pos h]

/-- An empty and a reversed range on `splitFile`. -/
theorem ScanFileRangeForAlerts_empty_range_witness :
    ScanFileRangeForAlerts splitFile 3 3 = (false, []) ∧
    ScanFileRangeForAlerts splitFile 12 3 = (false, []) :=
  ⟨ScanFileRangeForAlerts_empty_range splitFile 3 3 (by decide),
    ScanFileRangeForAlerts_empty_range splitFile 12 3 (by decide)⟩

/-! ## The watch state: lemmas -/

theorem clampAcknowledgedOffset_fst (w : World) (size : Nat) :
    (clampAcknowledgedOffset w size).1 =
      if w.g_state.acknowledgedOffset > size then
        { g_state := { w.g_state with acknowledgedOffset := 0 }, ack_offset := 0 }
      else w := by
  unfold clampAcknowledgedOffset SaveAcknowledgedOffsetToConfig
  split <;> rfl

/-- The state after a tick on a file whose size could be read. -/
theorem MonitorLogFileOnce_some (w : World) (f : OpenFile) (hs : f.sizeOk = true) :
    MonitorLogFileOnce w (some f) =
      ((monitorGrow (monitorShrink w f.content.length).1 f f.content.length
          (monitorShrink w f.content.length).2.2).1,
        (monitorShrink w f.content.length).2.1 ++
        (monitorGrow (monitorShrink w f.content.length).1 f f.content.length
          (monitorShrink w f.content.length).2.2).2.1 ++
        (if (monitorGrow (monitorShrink w f.content.length).1 f f.content.length
            (monitorShrink w f.content.length).2.2).2.2
         then UpdateTrayIcon (monitorGrow (monitorShrink w f.content.length).1 f
            f.content.length (monitorShrink w f.content.length).2.2).1
         else [])) := by
  simp [MonitorLogFileOnce, hs]

theorem monitorShrink_of_lt (w : World) (newSize : Nat) (h : newSize < w.g_state.lastOffset) :
    (monitorShrink w newSize).1 =
      { g_state :=
          { acknowledgedOffset :=
              if w.g_state.acknowledgedOffset > newSize then 0
              else w.g_state.acknowledgedOffset,
            lastOffset := 0, hasAlert := false, blinkShowAlertIcon := true },
        ack_offset := if w.g_state.acknowledgedOffset > newSize then 0 else w.ack_offset } := by
  unfold monitorShrink
  rw [if_pos h]
  simp only [clampAcknowledgedOffset_fst]
  split <;> rfl

theorem monitorShrink_of_ge (w : World) (newSize : Nat) (h : w.g_state.lastOffset ≤ newSize) :
    monitorShrink w newSize = (w, [], false) := by
  unfold monitorShrink
  rw [if_neg (by omega)]

theorem monitorGrow_of_le (w : World) (f : OpenFile) (newSize : Nat) (r : Bool)
    (h : newSize ≤ w.g_state.lastOffset) :
    monitorGrow w f newSize r = (w, [], r) := by
  unfold monitorGrow
  rw [if_neg (by omega)]

theorem monitorGrow_of_gt (w : World) (f : OpenFile) (newSize : Nat) (r : Bool)
    (h : w.g_state.lastOffset < newSize) :
    (monitorGrow w f newSize r).1 =
      { g_state :=
          { acknowledgedOffset := w.g_state.acknowledgedOffset,
            lastOffset := newSize,
            hasAlert :=
              w.g_state.hasAlert || (ScanFileRangeForAlerts f w.g_state.lastOffset newSize).1,
            blinkShowAlertIcon :=
              if (ScanFileRangeForAlerts f w.g_state.lastOffset newSize).1 = true ∧
                  w.g_state.hasAlert = false then true
              else w.g_state.blinkShowAlertIcon },
        ack_offset := w.ack_offset } := by
  unfold monitorGrow
  rw [if_pos h]
  cases hsc : (ScanFileRangeForAlerts f w.g_state.lastOffset newSize).1 <;>
    cases hh : w.g_state.hasAlert <;> simp [hsc, hh]

/-- The state after a tick on a file that shrank below `lastOffset`. -/
theorem MonitorLogFileOnce_shrunk (w : World) (f : OpenFile) (hs : f.sizeOk = true)
    (hS : f.content.length < w.g_state.lastOffset) :
    (MonitorLogFileOnce w (some f)).1 =
      { g_state :=
          { acknowledgedOffset :=
              if w.g_state.acknowledgedOffset > f.content.length then 0
              else w.g_state.acknowledgedOffset,
            lastOffset := f.content.length,
            hasAlert := (ScanFileRangeForAlerts f 0 f.content.length).1,
            blinkShowAlertIcon := true },
        ack_offset :=
          if w.g_state.acknowledgedOffset > f.content.length then 0 else w.ack_offset } := by
  rw [MonitorLogFileOnce_some w f hs]
  simp only
  rw [monitorShrink_of_lt w _ hS]
  by_cases h0 : f.content.length = 0
  · rw [monitorGrow_of_le _ _ _ _ (by simp [h0])]
    simp [h0, ScanFileRangeForAlerts]
  · rw [monitorGrow_of_gt _ _ _ _ (by simp; omega)]
    simp

/-- The state after a tick on a file that did not shrink. -/
theorem MonitorLogFileOnce_not_shrunk (w : World) (f : OpenFile) (hs : f.sizeOk = true)
    (hS : w.g_state.lastOffset ≤ f.content.length) :
    (MonitorLogFileOnce w (some f)).1 =
      { g_state :=
          { acknowledgedOffset := w.g_state.acknowledgedOffset,
            lastOffset := f.content.length,
            hasAlert :=
              w.g_state.hasAlert ||
                (ScanFileRangeForAlerts f w.g_state.lastOffset f.content.length).1,
            blinkShowAlertIcon :=
              if (ScanFileRangeForAlerts f w.g_state.lastOffset f.content.length).1 = true ∧
                  w.g_state.hasAlert = false then true
              else w.g_state.blinkShowAlertIcon },
        ack_offset := w.ack_offset } := by
  rw [MonitorLogFileOnce_some w f hs]
  simp only
  rw [monitorShrink_of_ge w _ hS]
  simp only
  by_cases heq : f.content.length = w.g_state.lastOffset
  · rw [monitorGrow_of_le _ _ _ _ (by omega)]
    simp only [heq, ScanFileRangeForAlerts, le_refl, if_true, Bool.or_false,
      Bool.false_eq_true, false_and, if_false]
  · rw [monitorGrow_of_gt _ _ _ _ (by omega)]

/-- The state after a full rescan of a file whose size `S > 0` could be read. -/
theorem ResetWatcherAndRescan_some (w : World) (f : OpenFile) (hs : f.sizeOk = true)
    (hpos : 0 < f.content.length) :
    (ResetWatcherAndRescan w (some f)).1 =
      { g_state :=
          { acknowledgedOffset :=
              if w.g_state.acknowledgedOffset > f.content.length then 0
              else w.g_state.acknowledgedOffset,
            lastOffset := f.content.length,
            hasAlert :=
              (ScanFileRangeForAlerts f
                (if w.g_state.acknowledgedOffset > f.content.length then 0
                 else w.g_state.acknowledgedOffset) f.content.length).1,
            blinkShowAlertIcon := true },
        ack_offset :=
          if w.g_state.acknowledgedOffset > f.content.length then 0 else w.ack_offset } := by
  unfold ResetWatcherAndRescan
  simp only [hs, hpos, decide_True, Bool.and_self, if_true, clampAcknowledgedOffset_fst]
  split <;> rfl

/-- The state after a full rescan that found no file, an empty file, or a file
whose size could not be read. -/
theorem ResetWatcherAndRescan_nothing (w : World) (file : Option OpenFile)
    (h : ∀ f, file = some f → f.sizeOk = false ∨ f.content.length = 0) :
    ResetWatcherAndRescan w file =
      ({ g_state :=
          { acknowledgedOffset := w.g_state.acknowledgedOffset,
            lastOffset := 0, hasAlert := false, blinkShowAlertIcon := true },
         ack_offset := w.ack_offset },
        [Event.updateTray false false]) := by
  unfold ResetWatcherAndRescan
  cases file with
  | none => rfl
  | some f =>
    have hc : (f.sizeOk && decide (f.content.length > 0)) = false := by
      rcases h f rfl with h1 | h1 <;> simp [h1]
    simp only [hc]
    rfl

/-- The result of a tick that could not open the file. -/
theorem MonitorLogFileOnce_none (w : World) :
    MonitorLogFileOnce w none =
      ({ g_state :=
          { acknowledgedOffset := w.g_state.acknowledgedOffset,
            lastOffset := 0, hasAlert := false,
            blinkShowAlertIcon := if w.g_state.hasAlert then true
              else w.g_state.blinkShowAlertIcon },
         ack_offset := w.ack_offset },
        if w.g_state.hasAlert then [Event.updateTray false false] else []) := by
  unfold MonitorLogFileOnce
  cases hh : w.g_state.hasAlert
  · simp [hh]
  · simp [hh, UpdateTrayIcon, alertIconShown]

/-- A tick on a file whose size equals `lastOffset` changes nothing and issues
no call. -/
theorem MonitorLogFileOnce_unchanged (w : World) (f : OpenFile) (hs : f.sizeOk = true)
    (hS : f.content.length = w.g_state.lastOffset) :
    MonitorLogFileOnce w (some f) = (w, []) := by
  rw [MonitorLogFileOnce_some w f hs, monitorShrink_of_ge w _ (by omega)]
  simp only
  rw [monitorGrow_of_le _ _ _ _ (by omega)]
  rfl

/-! ## The watch state: claims C4 to C10 -/

/-- Claim C4 as stated fails on its own instance: from `lastOffset = 1000`,
`acknowledgedOffset = 500`, `hasAlert = true`, a tick on a file truncated to 200
bytes (which hold the marker) ends with `lastOffset = 200` and `hasAlert = true`,
not with `lastOffset = 0` and `hasAlert = false`. -/
theorem rotation_tick_counterexample :
    f200.sizeOk = true ∧ f200.content.length = 200 ∧
    f200.content.length < w1000.g_state.lastOffset ∧
    (MonitorLogFileOnce w1000 (some f200)).1.g_state =
      { acknowledgedOffset := 0, lastOffset := 200, hasAlert := true,
        blinkShowAlertIcon := true } ∧
    ¬ ((MonitorLogFileOnce w1000 (some f200)).1.g_state.lastOffset = 0 ∧
       (MonitorLogFileOnce w1000 (some f200)).1.g_state.hasAlert = false) := by
  decide

/-- Claim C4, amended: on a tick in which the file opens with size
`S < lastOffset`, the state is reset (`lastOffset = 0`, `hasAlert = false`,
`acknowledgedOffset` set to 0 and persisted if it exceeded `S`, unchanged
otherwise) and the bytes `[0, S)` are then scanned in the same tick: afterwards
`lastOffset = S` and `hasAlert = ScanFileRangeForAlerts(file, 0, S)`.  So
`lastOffset = 0` and `hasAlert = false` after the tick when `S = 0`. -/
theorem rotation_tick (w : World) (f : OpenFile) (hs : f.sizeOk = true)
    (hS : f.content.length < w.g_state.lastOffset) :
    (MonitorLogFileOnce w (some f)).1.g_state.acknowledgedOffset =
      (if w.g_state.acknowledgedOffset > f.content.length then 0
       else w.g_state.acknowledgedOffset) ∧
    (MonitorLogFileOnce w (some f)).1.ack_offset =
      (if w.g_state.acknowledgedOffset > f.content.length then 0 else w.ack_offset) ∧
    (MonitorLogFileOnce w (some f)).1.g_state.lastOffset = f.content.length ∧
    (MonitorLogFileOnce w (some f)).1.g_state.hasAlert =
      (ScanFileRangeForAlerts f 0 f.content.length).1 ∧
    (f.content.length = 0 →
      (MonitorLogFileOnce w (some f)).1.g_state.lastOffset = 0 ∧
      (MonitorLogFileOnce w (some f)).1.g_state.hasAlert = false) := by
  rw [MonitorLogFileOnce_shrunk w f hs hS]
  refine ⟨rfl, rfl, rfl, rfl, ?_⟩
  intro h0
  simp [h0, ScanFileRangeForAlerts]

/-- The truncation to an empty file resets everything; `w1000` is the state of
the claim's instance. -/
theorem rotation_tick_witness :
    (MonitorLogFileOnce w1000 (some emptyFile)).1.g_state.acknowledgedOffset = 0 ∧
    (MonitorLogFileOnce w1000 (some emptyFile)).1.ack_offset = 0 ∧
    (MonitorLogFileOnce w1000 (some emptyFile)).1.g_state.lastOffset = 0 ∧
    (MonitorLogFileOnce w1000 (some emptyFile)).1.g_state.hasAlert = false :=
  have h := rotation_tick w1000 emptyFile rfl (by decide)
  ⟨h.1, h.2.1, h.2.2.1, (h.2.2.2.2 rfl).2⟩

/-- Claim C5: for every state, `AcknowledgeAlert` yields
`acknowledgedOffset =` the prior `lastOffset`, `hasAlert = false`, `lastOffset`
unchanged and the persisted `ack_offset` equal to the new `acknowledgedOffset`;
acknowledging a second time leaves the state (and the persisted value) as the
first acknowledgment left it. -/
theorem AcknowledgeAlert_post (w : World) :
    (AcknowledgeAlert w).1.g_state.acknowledgedOffset = w.g_state.lastOffset ∧
    (AcknowledgeAlert w).1.g_state.hasAlert = false ∧
    (AcknowledgeAlert w).1.g_state.lastOffset = w.g_state.lastOffset ∧
    (AcknowledgeAlert w).1.ack_offset = (AcknowledgeAlert w).1.g_state.acknowledgedOffset ∧
    (AcknowledgeAlert (AcknowledgeAlert w).1).1 = (AcknowledgeAlert w).1 :=
  ⟨rfl, rfl, rfl, rfl, rfl⟩

/-- Claim C6 as stated fails: a tick that cannot open the file leaves
`acknowledgedOffset = 500` and sets `lastOffset = 0`; so does a full rescan that
cannot open the file or finds it empty. -/
theorem ack_le_last_counterexample :
    ¬ AckLeLast (MonitorLogFileOnce w1000 none).1 ∧
    ¬ AckLeLast (ResetWatcherAndRescan w1000 none).1 ∧
    ¬ AckLeLast (ResetWatcherAndRescan w1000 (some emptyFile)).1 := by
  decide

/-- Claim C6, amended: `acknowledgedOffset <= lastOffset` holds after
`AcknowledgeAlert` from every state; after `ResetWatcherAndRescan` whenever the
file opens and a size `S > 0` is read; after `MonitorLogFileOnce` on a file that
opens whenever it held before the tick or the size read is below `lastOffset`.
When the file cannot be opened (and, in a full rescan, when it is empty or its
size cannot be read) `lastOffset` is 0 and `acknowledgedOffset` is kept, so the
invariant then holds exactly when `acknowledgedOffset = 0`. -/
theorem ack_le_last_after (w : World) (f : OpenFile) :
    AckLeLast (AcknowledgeAlert w).1 ∧
    (f.sizeOk = true ∧ 0 < f.content.length →
      AckLeLast (ResetWatcherAndRescan w (some f)).1) ∧
    (AckLeLast w ∨ (f.sizeOk = true ∧ f.content.length < w.g_state.lastOffset) →
      AckLeLast (MonitorLogFileOnce w (some f)).1) ∧
    (AckLeLast (MonitorLogFileOnce w none).1 ↔ w.g_state.acknowledgedOffset = 0) ∧
    (AckLeLast (ResetWatcherAndRescan w none).1 ↔ w.g_state.acknowledgedOffset = 0) ∧
    (f.sizeOk = false ∨ f.content.length = 0 →
      (AckLeLast (ResetWatcherAndRescan w (some f)).1 ↔
        w.g_state.acknowledgedOffset = 0)) := by
  refine ⟨Nat.le_refl _, ?_, ?_, ?_, ?_, ?_⟩
  · rintro ⟨hs, hpos⟩
    rw [ResetWatcherAndRescan_some w f hs hpos]
    unfold AckLeLast
    simp only
    split <;> omega
  · intro h
    cases hs : f.sizeOk with
    | false =>
      have hw : MonitorLogFileOnce w (some f) = (w, []) := by
        simp [MonitorLogFileOnce, hs]
      rw [hw]
      rcases h with h | ⟨h, _⟩
      · exact h
      · rw [hs] at h; cases h
    | true =>
      by_cases hS : f.content.length < w.g_state.lastOffset
      · rw [MonitorLogFileOnce_shrunk w f hs hS]
        unfold AckLeLast
        simp only
        split <;> omega
      · rw [MonitorLogFileOnce_not_shrunk w f hs (by omega)]
        rcases h with h | ⟨_, h⟩
        · unfold AckLeLast at h ⊢
          simp only
          omega
        · omega
  · rw [MonitorLogFileOnce_none]
    unfold AckLeLast
    simp
  · rw [ResetWatcherAndRescan_nothing w none (by intro f hf; cases hf)]
    unfold AckLeLast
    simp
  · intro h
    rw [ResetWatcherAndRescan_nothing w (some f) (by intro g hg; cases hg; exact h)]
    unfold AckLeLast
    simp

/-- The three operations on `w1000` and the 200-byte file `f200`. -/
theorem ack_le_last_after_witness :
    AckLeLast (AcknowledgeAlert w1000).1 ∧
    AckLeLast (ResetWatcherAndRescan w1000 (some f200)).1 ∧
    AckLeLast (MonitorLogFileOnce w1000 (some f200)).1 :=
  have h := ack_le_last_after w1000 f200
  ⟨h.1, h.2.1 ⟨rfl, by decide⟩, h.2.2.1 (Or.inr ⟨rfl, by decide⟩)⟩

/-- Claim C7 at its failing input.  From `acknowledgedOffset = 500` (persisted),
a tick that cannot open the file leaves `lastOffset = 0` and
`acknowledgedOffset = 500`; the next tick finds the 200-byte file `f200`, whose
size it reads: it scans `[0, 200)` and raises the alert, but leaves
`acknowledgedOffset = 500 > 200`, in the state and in the configuration.  On the
same state and file `ResetWatcherAndRescan` sets it to 0 and persists the 0, and
so does the shrink block of `MonitorLogFileOnce` when it is entered (from
`lastOffset = 1000`).  What follows from the stale value: a full rescan at
start-up, once the file has grown to 600 bytes, scans `[500, 600)` only and
ends with `hasAlert = false`, though the marker at `[100, 109)` was never
acknowledged. -/
theorem tick_leaves_ack_above_size :
    (MonitorLogFileOnce w1000 none).1 =
      { g_state := { acknowledgedOffset := 500, lastOffset := 0, hasAlert := false,
                     blinkShowAlertIcon := true },
        ack_offset := 500 } ∧
    f200.sizeOk = true ∧ f200.content.length = 200 ∧
    (MonitorLogFileOnce (MonitorLogFileOnce w1000 none).1 (some f200)).1 =
      { g_state := { acknowledgedOffset := 500, lastOffset := 200, hasAlert := true,
                     blinkShowAlertIcon := true },
        ack_offset := 500 } ∧
    ¬ ((MonitorLogFileOnce (MonitorLogFileOnce w1000 none).1
          (some f200)).1.g_state.acknowledgedOffset ≤ f200.content.length) ∧
    (ResetWatcherAndRescan (MonitorLogFileOnce w1000 none).1 (some f200)).1 =
      { g_state := { acknowledgedOffset := 0, lastOffset := 200, hasAlert := true,
                     blinkShowAlertIcon := true },
        ack_offset := 0 } ∧
    (MonitorLogFileOnce w1000 (some f200)).1 =
      { g_state := { acknowledgedOffset := 0, lastOffset := 200, hasAlert := true,
                     blinkShowAlertIcon := true },
        ack_offset := 0 } ∧
    f600.sizeOk = true ∧ f600.content.length = 600 ∧ f600.content.take 200 = f200.content ∧
    scanRanges (ResetWatcherAndRescan
      (MonitorLogFileOnce (MonitorLogFileOnce w1000 none).1 (some f200)).1
      (some f600)).2 = [(500, 600)] ∧
    (ResetWatcherAndRescan
      (MonitorLogFileOnce (MonitorLogFileOnce w1000 none).1 (some f200)).1
      (some f600)).1.g_state.hasAlert = false := by
  decide

/-- Claim C8: on a tick in which the file opens with size `S >= lastOffset`, the
state afterwards has `hasAlert = (prior hasAlert || ScanFileRangeForAlerts(file,
prior lastOffset, S))`, `lastOffset = S` and `acknowledgedOffset` unchanged; a
pending alert stays latched whatever the new bytes hold; when `S = lastOffset`
the state is unchanged and no call is issued.  When the seek and all reads
succeed, `hasAlert` afterwards is `prior hasAlert ||` (the marker occurs wholly
inside `[prior lastOffset, S)`), which gives the two-tick instance. -/
theorem tick_not_shrunk (w : World) (f : OpenFile) (hs : f.sizeOk = true)
    (hS : w.g_state.lastOffset ≤ f.content.length) :
    (MonitorLogFileOnce w (some f)).1.g_state.hasAlert =
      (w.g_state.hasAlert ||
        (ScanFileRangeForAlerts f w.g_state.lastOffset f.content.length).1) ∧
    (MonitorLogFileOnce w (some f)).1.g_state.lastOffset = f.content.length ∧
    (MonitorLogFileOnce w (some f)).1.g_state.acknowledgedOffset
      = w.g_state.acknowledgedOffset ∧
    (w.g_state.hasAlert = true → (MonitorLogFileOnce w (some f)).1.g_state.hasAlert = true) ∧
    (f.content.length = w.g_state.lastOffset → MonitorLogFileOnce w (some f) = (w, [])) ∧
    (f.seekOk = true → (∀ i, ∃ n, 1 ≤ n ∧ f.reads i = ReadOutcome.ok n) →
      (MonitorLogFileOnce w (some f)).1.g_state.hasAlert =
        (w.g_state.hasAlert ||
          decide (MarkerIn f.content w.g_state.lastOffset f.content.length))) := by
  refine ⟨?_, ?_, ?_, ?_, ?_, ?_⟩
  · rw [MonitorLogFileOnce_not_shrunk w f hs hS]
  · rw [MonitorLogFileOnce_not_shrunk w f hs hS]
  · rw [MonitorLogFileOnce_not_shrunk w f hs hS]
  · intro h
    rw [MonitorLogFileOnce_not_shrunk w f hs hS]
    simp [h]
  · exact MonitorLogFileOnce_unchanged w f hs
  · intro hseek hreads
    rw [MonitorLogFileOnce_not_shrunk w f hs hS]
    simp only
    rw [scan_eq_markerIn f _ _ (Nat.le_refl _) hseek hreads]

/-- The two-tick instance: the first tick sees five bytes without the marker,
the second tick sees the marker appended right after them. -/
theorem tick_not_shrunk_witness :
    (MonitorLogFileOnce initialWorld (some tick1File)).1.g_state.hasAlert = false ∧
    (MonitorLogFileOnce initialWorld (some tick1File)).1.g_state.lastOffset = 5 ∧
    (MonitorLogFileOnce (MonitorLogFileOnce initialWorld (some tick1File)).1
      (some tick2File)).1.g_state.hasAlert = true :=
  ⟨by decide, by decide,
    ((tick_not_shrunk (MonitorLogFileOnce initialWorld (some tick1File)).1 tick2File rfl
      (by decide)).2.2.2.2.2 rfl (fun _ => ⟨65536, by decide, rfl⟩)).trans (by decide)⟩

/-- Claim C9: when the log file cannot be opened, the incremental tick and the
full rescan both end with `hasAlert = false` and `lastOffset = 0`, leave
`acknowledgedOffset` and the persisted `ack_offset` unchanged, and issue no scan,
seek, read or save: the only call is the tray update. -/
theorem file_unavailable (w : World) :
    ((MonitorLogFileOnce w none).1.g_state.hasAlert = false ∧
     (MonitorLogFileOnce w none).1.g_state.lastOffset = 0 ∧
     (MonitorLogFileOnce w none).1.g_state.acknowledgedOffset
       = w.g_state.acknowledgedOffset ∧
     (MonitorLogFileOnce w none).1.ack_offset = w.ack_offset ∧
     (MonitorLogFileOnce w none).2 =
       (if w.g_state.hasAlert then [Event.updateTray false false] else []) ∧
     ∀ ev ∈ (MonitorLogFileOnce w none).2, ev.touchesFile = false) ∧
    ((ResetWatcherAndRescan w none).1.g_state.hasAlert = false ∧
     (ResetWatcherAndRescan w none).1.g_state.lastOffset = 0 ∧
     (ResetWatcherAndRescan w none).1.g_state.acknowledgedOffset
       = w.g_state.acknowledgedOffset ∧
     (ResetWatcherAndRescan w none).1.ack_offset = w.ack_offset ∧
     (ResetWatcherAndRescan w none).2 = [Event.updateTray false false] ∧
     ∀ ev ∈ (ResetWatcherAndRescan w none).2, ev.touchesFile = false) := by
  constructor
  · rw [MonitorLogFileOnce_none]
    refine ⟨rfl, rfl, rfl, rfl, rfl, ?_⟩
    intro ev hev
    simp only at hev
    split at hev
    · simp at hev; subst hev; rfl
    · simp at hev
  · rw [ResetWatcherAndRescan_nothing w none (by intro f hf; cases hf)]
    refine ⟨rfl, rfl, rfl, rfl, rfl, ?_⟩
    intro ev hev
    simp at hev
    subst hev
    rfl

/-- Claim C10: for every prior state and every file that opens with size `S`,
after `ResetWatcherAndRescan` `lastOffset = S` and `hasAlert =
ScanFileRangeForAlerts(file, a, S)` with `a` the `acknowledgedOffset` held after
the rescan; the result (state and calls) is the same whatever the prior
`lastOffset` and the prior `hasAlert` were. -/
theorem full_rescan_existing (w : World) (f : OpenFile) (hs : f.sizeOk = true) :
    (ResetWatcherAndRescan w (some f)).1.g_state.lastOffset = f.content.length ∧
    (ResetWatcherAndRescan w (some f)).1.g_state.hasAlert =
      (ScanFileRangeForAlerts f
        (ResetWatcherAndRescan w (some f)).1.g_state.acknowledgedOffset
        f.content.length).1 ∧
    ∀ (lo : Nat) (ha : Bool),
      ResetWatcherAndRescan
        { w with g_state := { w.g_state with lastOffset := lo, hasAlert := ha } } (some f)
      = ResetWatcherAndRescan w (some f) := by
  refine ⟨?_, ?_, fun _ _ => rfl⟩
  · by_cases hpos : 0 < f.content.length
    · rw [ResetWatcherAndRescan_some w f hs hpos]
    · rw [ResetWatcherAndRescan_nothing w (some f)
        (by intro g hg; cases hg; exact Or.inr (by omega))]
      simp only
      omega
  · by_cases hpos : 0 < f.content.length
    · rw [ResetWatcherAndRescan_some w f hs hpos]
    · have h0 : f.content.length = 0 := by omega
      rw [ResetWatcherAndRescan_nothing w (some f) (by intro g hg; cases hg; exact Or.inr h0)]
      simp [h0, ScanFileRangeForAlerts]

/-- The full rescan of `f200` from `w1000`: the stale `lastOffset = 1000` and
the pending alert play no part. -/
theorem full_rescan_existing_witness :
    (ResetWatcherAndRescan w1000 (some f200)).1.g_state.lastOffset = 200 ∧
    ResetWatcherAndRescan
      { w1000 with g_state := { w1000.g_state with lastOffset := 7, hasAlert := false } }
      (some f200) = ResetWatcherAndRescan w1000 (some f200) :=
  have h := full_rescan_existing w1000 f200 rfl
  ⟨h.1.trans (by decide), h.2.2 7 false⟩

/-! ## The iterations of the scan loop: lemmas -/

theorem scanIterations_zero (f : OpenFile) (remaining pos idx : Nat) (overlap : List Byte) :
    scanIterations f 0 remaining pos idx overlap = [] := rfl

theorem scanIterations_succ (f : OpenFile) (fuel remaining pos idx : Nat)
    (overlap : List Byte) :
    scanIterations f (fuel + 1) remaining pos idx overlap =
      if remaining > 0 then
        match f.reads idx with
        | .fail =>
          [{ remaining := remaining, pos := pos, overlap := overlap,
             toRead := min remaining kBufferSize,
             readOk := false, bytesRead := 0, found := false }]
        | .ok n =>
          if bytesDelivered f.content pos (min remaining kBufferSize) n = 0 then
            [{ remaining := remaining, pos := pos, overlap := overlap,
               toRead := min remaining kBufferSize,
               readOk := true, bytesRead := 0, found := false }]
          else if ContainsAlertKeyword
              (overlap ++ (f.content.drop pos).take
                (bytesDelivered f.content pos (min remaining kBufferSize) n)) then
            [{ remaining := remaining, pos := pos, overlap := overlap,
               toRead := min remaining kBufferSize, readOk := true,
               bytesRead := bytesDelivered f.content pos (min remaining kBufferSize) n,
               found := true }]
          else
            { remaining := remaining, pos := pos, overlap := overlap,
              toRead := min remaining kBufferSize, readOk := true,
              bytesRead := bytesDelivered f.content pos (min remaining kBufferSize) n,
              found := false } ::
            scanIterations f fuel
              (remaining - bytesDelivered f.content pos (min remaining kBufferSize) n)
              (pos + bytesDelivered f.content pos (min remaining kBufferSize) n) (idx + 1)
              (nextOverlap (overlap ++ (f.content.drop pos).take
                (bytesDelivered f.content pos (min remaining kBufferSize) n)))
      else [] := rfl

/-- The loop returns `true` iff one of its iterations found the marker, and it
issues one read per iteration. -/
theorem scanLoop_eq_iterations (f : OpenFile) :
    ∀ (fuel remaining pos idx : Nat) (overlap : List Byte),
      scanLoop f fuel remaining pos idx overlap =
        ((scanIterations f fuel remaining pos idx overlap).any Iteration.found,
         (scanIterations f fuel remaining pos idx overlap).map
           (fun it => Event.read it.toRead)) := by
  intro fuel
  induction fuel with
  | zero => intro remaining pos idx overlap; rfl
  | succ fuel ih =>
    intro remaining pos idx overlap
    rw [scanLoop_succ, scanIterations_succ]
    by_cases hrem : remaining > 0
    · rw [if_pos hrem, if_pos hrem]
      cases hr : f.reads idx with
      | fail => rfl
      | ok n =>
        simp only
        generalize bytesDelivered f.content pos (min remaining kBufferSize) n = k
        by_cases hz : k = 0
        · rw [if_pos hz, if_pos hz]; rfl
        · rw [if_neg hz, if_neg hz]
          by_cases hc : ContainsAlertKeyword (overlap ++ (f.content.drop pos).take k) = true
          · rw [if_pos hc, if_pos hc]; rfl
          · rw [if_neg hc, if_neg hc, ih]
            simp
    · rw [if_neg hrem, if_neg hrem]; rfl

theorem nextOverlap_length (chunk : List Byte) :
    (nextOverlap chunk).length ≤ kOverlapSize := by
  unfold nextOverlap
  split
  · rw [List.length_drop]; omega
  · omega

/-- What holds in every iteration: the size of the read requested, the number
of bytes delivered and the length of the overlap buffer. -/
theorem scanIterations_bounds (f : OpenFile) :
    ∀ (fuel remaining pos idx : Nat) (overlap : List Byte),
      overlap.length ≤ kOverlapSize →
      ∀ it ∈ scanIterations f fuel remaining pos idx overlap,
        1 ≤ it.toRead ∧ it.toRead ≤ kBufferSize ∧ it.toRead ≤ it.remaining ∧
        it.bytesRead ≤ it.toRead ∧ it.overlap.length ≤ kOverlapSize ∧
        it.remaining ≤ remaining := by
  intro fuel
  induction fuel with
  | zero => intro remaining pos idx overlap _ it hit; simp [scanIterations_zero] at hit
  | succ fuel ih =>
    intro remaining pos idx overlap hov it hit
    rw [scanIterations_succ] at hit
    have hkb : kBufferSize = 65536 := rfl
    by_cases hrem : remaining > 0
    · rw [if_pos hrem] at hit
      cases hr : f.reads idx with
      | fail =>
        rw [hr] at hit
        simp only [List.mem_singleton] at hit
        subst hit
        simp only
        omega
      | ok n =>
        rw [hr] at hit
        simp only at hit
        have hb : bytesDelivered f.content pos (min remaining kBufferSize) n
            ≤ min remaining kBufferSize := by
          unfold bytesDelivered; omega
        generalize bytesDelivered f.content pos (min remaining kBufferSize) n = k at hit hb
        by_cases hz : k = 0
        · rw [if_pos hz] at hit
          simp only [List.mem_singleton] at hit
          subst hit
          simp only
          omega
        · rw [if_neg hz] at hit
          split at hit
          · simp only [List.mem_singleton] at hit
            subst hit
            simp only
            omega
          · rcases List.mem_cons.1 hit with h | h
            · subst h
              simp only
              omega
            · have := ih _ _ _ _ (nextOverlap_length _) it h
              omega
    · rw [if_neg hrem] at hit; simp at hit

/-- The loop runs at most `remaining` iterations. -/
theorem scanIterations_length (f : OpenFile) :
    ∀ (fuel remaining pos idx : Nat) (overlap : List Byte),
      (scanIterations f fuel remaining pos idx overlap).length ≤ remaining := by
  intro fuel
  induction fuel with
  | zero => intro remaining pos idx overlap; simp [scanIterations_zero]
  | succ fuel ih =>
    intro remaining pos idx overlap
    rw [scanIterations_succ]
    by_cases hrem : remaining > 0
    · rw [if_pos hrem]
      cases hr : f.reads idx with
      | fail => simp only [List.length_singleton]; omega
      | ok n =>
        simp only
        generalize bytesDelivered f.content pos (min remaining kBufferSize) n = k
        by_cases hz : k = 0
        · rw [if_pos hz]; simp only [List.length_singleton]; omega
        · rw [if_neg hz]
          split
          · simp only [List.length_singleton]; omega
          · have := ih (remaining - k) (pos + k) (idx + 1)
              (nextOverlap (overlap ++ (f.content.drop pos).take k))
            simp only [List.length_cons]
            omega
    · rw [if_neg hrem]; simp

/-- Consecutive iterations: each one but the last read at least one byte, found
nothing, and handed `remaining - bytesRead` (no wrap-around, strictly smaller)
to the next one. -/
theorem scanIterations_chain (f : OpenFile) :
    ∀ (fuel remaining pos idx : Nat) (overlap : List Byte),
      List.Chain' Iteration.continuesTo (scanIterations f fuel remaining pos idx overlap) ∧
      ∀ it ∈ (scanIterations f fuel remaining pos idx overlap).head?,
        it.remaining = remaining ∧ it.pos = pos := by
  intro fuel
  induction fuel with
  | zero =>
    intro remaining pos idx overlap
    simp [scanIterations_zero]
  | succ fuel ih =>
    intro remaining pos idx overlap
    rw [scanIterations_succ]
    by_cases hrem : remaining > 0
    · rw [if_pos hrem]
      cases hr : f.reads idx with
      | fail => simp
      | ok n =>
        simp only
        have hb := bytesDelivered_le f.content pos remaining n
        generalize bytesDelivered f.content pos (min remaining kBufferSize) n = k at hb
        by_cases hz : k = 0
        · rw [if_pos hz]; simp
        · rw [if_neg hz]
          split
          · simp
          · obtain ⟨h1, h2⟩ := ih (remaining - k) (pos + k) (idx + 1)
              (nextOverlap (overlap ++ (f.content.drop pos).take k))
            refine ⟨List.chain'_cons'.2 ⟨?_, h1⟩, by simp⟩
            intro y hy
            obtain ⟨hy1, hy2⟩ := h2 y hy
            exact ⟨rfl, by simp only; omega, rfl, by simp only; omega, hy1,
              by simp only; omega, hy2⟩
    · rw [if_neg hrem]; simp

/-- With `remaining > 0` the loop runs at least one iteration. -/
theorem scanIterations_ne_nil (f : OpenFile) (fuel remaining pos idx : Nat)
    (overlap : List Byte) (hrem : 0 < remaining) (hfuel : remaining ≤ fuel) :
    scanIterations f fuel remaining pos idx overlap ≠ [] := by
  cases fuel with
  | zero => omega
  | succ fuel =>
    rw [scanIterations_succ, if_pos hrem]
    cases hr : f.reads idx with
    | fail => simp
    | ok n =>
      simp only
      split
      · simp
      · split <;> simp

/-- The last iteration is one that leaves the loop by the code's own exits: a
failed or empty read (`return false`, `break`), a match (`return true`), or
`remaining` reaching 0.  The bound `fuel` is not what ends the loop. -/
theorem scanIterations_last (f : OpenFile) :
    ∀ (fuel remaining pos idx : Nat) (overlap : List Byte), remaining ≤ fuel →
      ∀ it, (scanIterations f fuel remaining pos idx overlap).getLast? = some it →
        it.failed = true ∨ it.found = true ∨ it.bytesRead = it.remaining := by
  intro fuel
  induction fuel with
  | zero =>
    intro remaining pos idx overlap _ it hit
    simp [scanIterations_zero] at hit
  | succ fuel ih =>
    intro remaining pos idx overlap hfuel it hit
    rw [scanIterations_succ] at hit
    by_cases hrem : remaining > 0
    · rw [if_pos hrem] at hit
      cases hr : f.reads idx with
      | fail =>
        rw [hr] at hit
        simp only [List.getLast?_singleton, Option.some.injEq] at hit
        subst hit
        left; rfl
      | ok n =>
        rw [hr] at hit
        simp only at hit
        have hb := bytesDelivered_le f.content pos remaining n
        generalize bytesDelivered f.content pos (min remaining kBufferSize) n = k at hit hb
        by_cases hz : k = 0
        · rw [if_pos hz] at hit
          simp only [List.getLast?_singleton, Option.some.injEq] at hit
          subst hit
          left; simp [Iteration.failed]
        · rw [if_neg hz] at hit
          split at hit
          · simp only [List.getLast?_singleton, Option.some.injEq] at hit
            subst hit
            right; left; rfl
          · by_cases h0 : remaining - k = 0
            · have hnil : scanIterations f fuel (remaining - k) (pos + k) (idx + 1)
                  (nextOverlap (overlap ++ (f.content.drop pos).take k)) = [] := by
                rw [h0]
                cases fuel with
                | zero => rfl
                | succ m => rw [scanIterations_succ, if_neg (by omega)]
              rw [hnil] at hit
              simp only [List.getLast?_singleton, Option.some.injEq] at hit
              subst hit
              right; right
              simp only
              omega
            · have hne := scanIterations_ne_nil f fuel (remaining - k) (pos + k) (idx + 1)
                (nextOverlap (overlap ++ (f.content.drop pos).take k)) (by omega) (by omega)
              obtain ⟨y, ys, hys⟩ := List.exists_cons_of_ne_nil hne
              rw [hys, List.getLast?_cons_cons, ← hys] at hit
              exact ih _ _ _ _ (by omega) it hit
    · rw [if_neg hrem] at hit; simp at hit

/-- The iterations are a run of iterations that read at least one byte and found
nothing, closed by one last iteration; only the last one can have failed or
found the marker, and it found the marker only in bytes of a read that
succeeded. -/
theorem scanIterations_shape (f : OpenFile) :
    ∀ (fuel remaining pos idx : Nat) (overlap : List Byte),
      scanIterations f fuel remaining pos idx overlap = [] ∨
      ∃ init last, scanIterations f fuel remaining pos idx overlap = init ++ [last] ∧
        (∀ a ∈ init, a.readOk = true ∧ 1 ≤ a.bytesRead ∧ a.found = false) ∧
        (last.found = true → last.readOk = true ∧ 1 ≤ last.bytesRead) := by
  intro fuel
  induction fuel with
  | zero => intro remaining pos idx overlap; left; rfl
  | succ fuel ih =>
    intro remaining pos idx overlap
    rw [scanIterations_succ]
    by_cases hrem : remaining > 0
    · rw [if_pos hrem]
      right
      cases hr : f.reads idx with
      | fail => exact ⟨[], _, rfl, by simp, by simp⟩
      | ok n =>
        simp only
        generalize bytesDelivered f.content pos (min remaining kBufferSize) n = k
        by_cases hz : k = 0
        · rw [if_pos hz]; exact ⟨[], _, rfl, by simp, by simp⟩
        · rw [if_neg hz]
          split
          · exact ⟨[], _, rfl, by simp, fun _ => ⟨rfl, by simp only; omega⟩⟩
          · rcases ih (remaining - k) (pos + k) (idx + 1)
              (nextOverlap (overlap ++ (f.content.drop pos).take k)) with h | ⟨init, last, h, h1, h2⟩
            · rw [h]
              exact ⟨[], _, rfl, by simp, by simp⟩
            · rw [h]
              refine ⟨_ :: init, last, rfl, ?_, h2⟩
              intro a ha
              rcases List.mem_cons.1 ha with ha | ha
              · subst ha; exact ⟨rfl, by simp only; omega, rfl⟩
              · exact h1 a ha
    · rw [if_neg hrem]; left; rfl

theorem Iteration.not_failed (a : Iteration) (h1 : a.readOk = true) (h2 : 1 ≤ a.bytesRead) :
    a.failed = false := by
  unfold Iteration.failed
  simp [h1]
  omega

/-- When an iteration failed, no iteration found the marker. -/
theorem scanIterations_failed (f : OpenFile) (fuel remaining pos idx : Nat)
    (overlap : List Byte)
    (h : (scanIterations f fuel remaining pos idx overlap).any Iteration.failed = true) :
    (scanIterations f fuel remaining pos idx overlap).any Iteration.found = false := by
  rcases scanIterations_shape f fuel remaining pos idx overlap with
    h0 | ⟨init, last, hs, h1, h2⟩
  · rw [h0]; rfl
  · rw [hs] at h ⊢
    have hinit : init.any Iteration.found = false := by
      rw [List.any_eq_false]
      intro a ha
      simp [(h1 a ha).2.2]
    have hinitf : init.any Iteration.failed = false := by
      rw [List.any_eq_false]
      intro a ha
      simp [Iteration.not_failed a (h1 a ha).1 (h1 a ha).2.1]
    rw [List.any_append, hinitf] at h
    rw [List.any_append, hinit]
    simp only [List.any_cons, List.any_nil, Bool.or_false, Bool.false_or] at h ⊢
    cases hf : last.found with
    | false => rfl
    | true =>
      have := Iteration.not_failed last (h2 hf).1 (h2 hf).2
      rw [this] at h
      cases h

/-- When an iteration found the marker it is the last one, it follows
iterations that all read at least one byte, and its own read succeeded. -/
theorem scanIterations_found (f : OpenFile) (fuel remaining pos idx : Nat)
    (overlap : List Byte)
    (h : (scanIterations f fuel remaining pos idx overlap).any Iteration.found = true) :
    ∃ init last, scanIterations f fuel remaining pos idx overlap = init ++ [last] ∧
      last.found = true ∧ last.readOk = true ∧ 1 ≤ last.bytesRead ∧
      ∀ a ∈ init, a.readOk = true ∧ 1 ≤ a.bytesRead ∧ a.found = false := by
  rcases scanIterations_shape f fuel remaining pos idx overlap with
    h0 | ⟨init, last, hs, h1, h2⟩
  · rw [h0] at h; cases h
  · refine ⟨init, last, hs, ?_⟩
    rw [hs] at h
    have hinit : init.any Iteration.found = false := by
      rw [List.any_eq_false]
      intro a ha
      simp [(h1 a ha).2.2]
    rw [List.any_append, hinit] at h
    simp only [List.any_cons, List.any_nil, Bool.or_false, Bool.false_or] at h
    exact ⟨h, (h2 h).1, (h2 h).2, h1⟩

/-- A call with a non-empty range and a successful seek returns what the
iterations of its loop give. -/
theorem ScanFileRangeForAlerts_eq_iterations (f : OpenFile) (b e : Nat) (hbe : b < e)
    (hseek : f.seekOk = true) :
    ScanFileRangeForAlerts f b e =
      ((iterationsOf f b e).any Iteration.found,
       Event.seek b :: (iterationsOf f b e).map (fun it => Event.read it.toRead)) := by
  unfold ScanFileRangeForAlerts iterationsOf
  rw [if_neg (by omega), if_neg (by simp [hseek])]
  simp only
  rw [scanLoop_eq_iterations]

/-- A call with a non-empty range whose seek fails returns `false` at once. -/
theorem ScanFileRangeForAlerts_seek_failed (f : OpenFile) (b e : Nat) (hbe : b < e)
    (hseek : f.seekOk = false) :
    ScanFileRangeForAlerts f b e = (false, [Event.seek b]) := by
  unfold ScanFileRangeForAlerts
  rw [if_neg (by omega), if_pos (by simp [hseek])]

/-- An abandoned scan returns `false`. -/
theorem scanAbandoned_false (f : OpenFile) (b e : Nat)
    (h : scanAbandoned f b e = true) : (ScanFileRangeForAlerts f b e).1 = false := by
  unfold scanAbandoned at h
  simp only [Bool.and_eq_true, decide_eq_true_eq, Bool.or_eq_true, Bool.not_eq_true'] at h
  obtain ⟨hbe, h⟩ := h
  cases hs : f.seekOk with
  | false => rw [ScanFileRangeForAlerts_seek_failed f b e hbe hs]
  | true =>
    rw [hs] at h
    rcases h with h | h
    · cases h
    · rw [ScanFileRangeForAlerts_eq_iterations f b e hbe hs]
      exact scanIterations_failed f _ _ _ _ _ h

/-! ## The scanner: claims C14 and C18 -/

/-- Claim C14: scan failures are reported as no match.  For every file and
non-empty range, `ScanFileRangeForAlerts` returns `false` right after a failed
seek; it returns `false` when the scan is abandoned (an iteration of the loop is
reached whose read fails or delivers no byte, which means no earlier
`overlap + chunk` contained the marker); and when it returns `true` the seek
succeeded, every read issued succeeded and delivered at least one byte, the
marker was found in the last iteration, and the reads issued end with the read
of that iteration: no read follows the match.  (A call with an empty range
issues no call at all and returns `false`.) -/
theorem scan_failure_no_match (f : OpenFile) (b e : Nat) (hbe : b < e) :
    (f.seekOk = false → ScanFileRangeForAlerts f b e = (false, [Event.seek b])) ∧
    (scanAbandoned f b e = true → (ScanFileRangeForAlerts f b e).1 = false) ∧
    ((ScanFileRangeForAlerts f b e).1 = true →
      f.seekOk = true ∧
      ∃ init last, iterationsOf f b e = init ++ [last] ∧
        last.found = true ∧ last.readOk = true ∧ 1 ≤ last.bytesRead ∧
        (∀ a ∈ init, a.readOk = true ∧ 1 ≤ a.bytesRead ∧ a.found = false) ∧
        (ScanFileRangeForAlerts f b e).2 =
          Event.seek b :: (init.map (fun it => Event.read it.toRead)
            ++ [Event.read last.toRead])) := by
  refine ⟨ScanFileRangeForAlerts_seek_failed f b e hbe, scanAbandoned_false f b e, ?_⟩
  intro h
  cases hs : f.seekOk with
  | false =>
    rw [ScanFileRangeForAlerts_seek_failed f b e hbe hs] at h
    cases h
  | true =>
    refine ⟨rfl, ?_⟩
    rw [ScanFileRangeForAlerts_eq_iterations f b e hbe hs] at h ⊢
    obtain ⟨init, last, h1, h2, h3, h4, h5⟩ := scanIterations_found f _ _ _ _ _ h
    refine ⟨init, last, h1, h2, h3, h4, h5, ?_⟩
    unfold iterationsOf
    rw [h1]
    simp

/-- On `readFailFile` the second read fails: the scan over `[0, 14)`, which
holds the marker, is abandoned after two reads and returns `false`; on
`seekFailFile` no read is issued; on `splitFile` the match comes with the third
read, the last one issued although 2 bytes of the range are left. -/
theorem scan_failure_no_match_witness :
    ScanFileRangeForAlerts readFailFile 0 14 =
      (false, [Event.seek 0, Event.read 14, Event.read 10]) ∧
    ScanFileRangeForAlerts seekFailFile 5 14 = (false, [Event.seek 5]) ∧
    (ScanFileRangeForAlerts splitFile 0 14).2 =
      [Event.seek 0, Event.read 14, Event.read 10, Event.read 6] ∧
    (ScanFileRangeForAlerts readFailFile 0 14).1 = false ∧
    splitFile.seekOk = true :=
  ⟨by decide,
    (scan_failure_no_match seekFailFile 5 14 (by decide)).1 rfl,
    by decide,
    (scan_failure_no_match readFailFile 0 14 (by decide)).2.1 (by decide),
    ((scan_failure_no_match splitFile 0 14 (by decide)).2.2 (by decide)).1⟩

/-- Claim C18: the scan loop terminates without underflow.  For every range with
`b < e` and every behaviour of the reads (each fails or delivers at most what
was requested), the loop runs between 1 and `e - b` iterations and ends by one
of its own exits; in every iteration the read requested is between 1 and 65536
bytes and at most `remaining`, the bytes delivered are at most the bytes
requested, and the overlap buffer holds at most 8 bytes; from an iteration to
the next `remaining` becomes `remaining - bytesRead` with
`1 <= bytesRead <= remaining`, so it decreases strictly and never wraps. -/
theorem scan_loop_terminates (f : OpenFile) (b e : Nat) (hbe : b < e) :
    (f.seekOk = true →
      ScanFileRangeForAlerts f b e =
        ((iterationsOf f b e).any Iteration.found,
         Event.seek b :: (iterationsOf f b e).map (fun it => Event.read it.toRead))) ∧
    1 ≤ (iterationsOf f b e).length ∧
    (iterationsOf f b e).length ≤ e - b ∧
    (∀ fuel, e - b ≤ fuel →
      scanLoop f fuel (e - b) b 0 [] = scanLoop f (e - b) (e - b) b 0 []) ∧
    (∀ it, (iterationsOf f b e).getLast? = some it →
      it.failed = true ∨ it.found = true ∨ it.bytesRead = it.remaining) ∧
    (∀ it ∈ iterationsOf f b e,
      1 ≤ it.toRead ∧ it.toRead ≤ 65536 ∧ it.toRead ≤ it.remaining ∧
      it.bytesRead ≤ it.toRead ∧ it.remaining ≤ e - b ∧ it.overlap.length ≤ 8) ∧
    (∀ chunk : List Byte, (nextOverlap chunk).length ≤ 8) ∧
    List.Chain' Iteration.continuesTo (iterationsOf f b e) := by
  refine ⟨ScanFileRangeForAlerts_eq_iterations f b e hbe, ?_, ?_, ?_, ?_, ?_,
    fun chunk => kOverlapSize_eq ▸ nextOverlap_length chunk, ?_⟩
  · have hne := scanIterations_ne_nil f (e - b) (e - b) b 0 [] (by omega) (Nat.le_refl _)
    unfold iterationsOf
    cases hl : scanIterations f (e - b) (e - b) b 0 [] with
    | nil => exact absurd hl hne
    | cons x xs => simp
  · exact scanIterations_length f _ _ _ _ _
  · intro fuel hfuel
    exact scanLoop_fuel f fuel (e - b) (e - b) b 0 [] hfuel (Nat.le_refl _)
  · exact scanIterations_last f _ _ _ _ _ (Nat.le_refl _)
  · intro it hit
    have h := scanIterations_bounds f (e - b) (e - b) b 0 [] (by simp) it hit
    have h8 := kOverlapSize_eq
    have hk : kBufferSize = 65536 := rfl
    omega
  · exact (scanIterations_chain f _ _ _ _ _).1

/-- The three iterations of the scan of `splitFile` over `[0, 14)`. -/
theorem scan_loop_terminates_witness :
    iterationsOf splitFile 0 14 =
      [{ remaining := 14, pos := 0, overlap := [], toRead := 14, readOk := true,
         bytesRead := 4, found := false },
       { remaining := 10, pos := 4, overlap := [1, 2, 3, 34], toRead := 10, readOk := true,
         bytesRead := 4, found := false },
       { remaining := 6, pos := 8, overlap := [1, 2, 3, 34, 108, 111, 103, 103],
         toRead := 6, readOk := true, bytesRead := 4, found := true }] ∧
    (iterationsOf splitFile 0 14).length ≤ 14 - 0 :=
  ⟨by decide, (scan_loop_terminates splitFile 0 14 (by decide)).2.2.1⟩

/-! ## The ranges a tick and a full rescan ask for: lemmas -/

theorem scanRanges_append (xs ys : List Event) :
    scanRanges (xs ++ ys) = scanRanges xs ++ scanRanges ys := by
  induction xs with
  | nil => rfl
  | cons x xs ih => cases x <;> simp [scanRanges, ih]

theorem scanRanges_reads (its : List Iteration) :
    scanRanges (its.map (fun it => Event.read it.toRead)) = [] := by
  induction its with
  | nil => rfl
  | cons x xs ih => simpa [scanRanges] using ih

theorem scanRanges_scan (f : OpenFile) (b e : Nat) :
    scanRanges (ScanFileRangeForAlerts f b e).2 = [] := by
  unfold ScanFileRangeForAlerts
  split
  · rfl
  · split
    · rfl
    · simp only [scanRanges]
      rw [scanLoop_eq_iterations]
      exact scanRanges_reads _

theorem scanRanges_clamp (w : World) (size : Nat) :
    scanRanges (clampAcknowledgedOffset w size).2 = [] := by
  unfold clampAcknowledgedOffset SaveAcknowledgedOffsetToConfig
  split <;> rfl

/-- The ranges an incremental tick asks for, on a file whose size `S` was read:
`[0, S)` after a shrink (when `S > 0`), `[lastOffset, S)` after a growth, none
when the size is unchanged. -/
theorem scanRanges_tick (w : World) (f : OpenFile) (hs : f.sizeOk = true) :
    scanRanges (MonitorLogFileOnce w (some f)).2 =
      if f.content.length < w.g_state.lastOffset then
        (if 0 < f.content.length then [(0, f.content.length)] else [])
      else if w.g_state.lastOffset < f.content.length then
        [(w.g_state.lastOffset, f.content.length)]
      else [] := by
  rw [MonitorLogFileOnce_some w f hs]
  simp only [scanRanges_append]
  have hupd : ∀ (c : Bool) (v : World),
      scanRanges (if c = true then UpdateTrayIcon v else []) = [] := by
    intro c v; cases c <;> rfl
  rw [hupd, List.append_nil]
  by_cases hlt : f.content.length < w.g_state.lastOffset
  · rw [if_pos hlt]
    have hsh : scanRanges (monitorShrink w f.content.length).2.1 = [] := by
      unfold monitorShrink
      rw [if_pos hlt]
      exact scanRanges_clamp _ _
    rw [hsh, List.nil_append, monitorShrink_of_lt w _ hlt]
    by_cases h0 : 0 < f.content.length
    · rw [if_pos h0]
      unfold monitorGrow
      rw [if_pos (by simpa using h0)]
      simp only [scanRanges, scanRanges_scan]
    · rw [if_neg h0, monitorGrow_of_le _ _ _ _ (by simp only; omega)]
      rfl
  · rw [if_neg hlt, monitorShrink_of_ge w _ (by omega)]
    simp only [scanRanges, List.nil_append]
    by_cases hgt : w.g_state.lastOffset < f.content.length
    · rw [if_pos hgt]
      unfold monitorGrow
      rw [if_pos hgt]
      simp only [scanRanges, scanRanges_scan]
    · rw [if_neg hgt, monitorGrow_of_le _ _ _ _ (by omega)]
      rfl

/-- The range a full rescan asks for, on a file whose size `S > 0` was read:
`[a, S)` with `a` the acknowledged offset after the comparison with `S`. -/
theorem scanRanges_rescan (w : World) (f : OpenFile) (hs : f.sizeOk = true)
    (hpos : 0 < f.content.length) :
    scanRanges (ResetWatcherAndRescan w (some f)).2 =
      [((ResetWatcherAndRescan w (some f)).1.g_state.acknowledgedOffset,
        f.content.length)] := by
  unfold ResetWatcherAndRescan
  simp only [hs, hpos, decide_True, Bool.and_self, if_true, scanRanges_append,
    scanRanges_clamp, scanRanges, scanRanges_scan, UpdateTrayIcon, List.nil_append,
    List.append_nil]

theorem MarkerIn_mono (c : List Byte) (b b2 e : Nat) (hb : b2 ≤ b) (h : MarkerIn c b e) :
    MarkerIn c b2 e := by
  obtain ⟨i, h1, h2, h3, h4⟩ := h
  exact ⟨i, h1, by omega, h3, h4⟩

/-! ## Incremental ticks against the acknowledged offset and against failures:
claims C11 to C13 -/

/-- Claim C11 at its failing input.  The log grows from `cutFile` (9 bytes, the
last four being the start of the marker) to `tick2File` (14 bytes, the marker
completed); all reads succeed and nothing is acknowledged (`acknowledgedOffset`
is 0 throughout).  A full rescan at size 9 followed by one tick at size 14 ends
with `hasAlert = false`, while one full rescan at size 14 gives `hasAlert = true`:
the marker at bytes `[5, 14)` straddles the size seen by the first scan. -/
theorem incremental_misses_straddling_marker :
    tick2File.content.take 9 = cutFile.content ∧
    cutFile.content.length = 9 ∧ tick2File.content.length = 14 ∧
    (ResetWatcherAndRescan initialWorld (some cutFile)).1.g_state.acknowledgedOffset = 0 ∧
    (runTicks (ResetWatcherAndRescan initialWorld (some cutFile)).1
      [some tick2File]).1.g_state.hasAlert = false ∧
    (runTicks (ResetWatcherAndRescan initialWorld (some cutFile)).1
      [some tick2File]).2.map scanRanges = [[(9, 14)]] ∧
    (ResetWatcherAndRescan initialWorld (some tick2File)).1.g_state.hasAlert = true ∧
    MarkerIn tick2File.content 0 14 := by
  decide

/-- Claim C12 as stated fails.  From `acknowledgedOffset = 150`,
`lastOffset = 1000`, no alert pending, a tick on the 200-byte file `f200`
(truncated, yet `200 >= 150`) asks for the range `[0, 200)`, which starts below
`acknowledgedOffset`, and sets `hasAlert` from the marker at bytes `[100, 109)`,
wholly below 150.  The same happens on the tick after the file has been
missing. -/
theorem scan_below_ack_counterexample :
    f200.sizeOk = true ∧ f200.content.length = 200 ∧ MarkerAt f200.content 100 ∧
    scanRanges (MonitorLogFileOnce w150 (some f200)).2 = [(0, 200)] ∧
    (MonitorLogFileOnce w150 (some f200)).1.g_state.acknowledgedOffset = 150 ∧
    (MonitorLogFileOnce w150 (some f200)).1.g_state.hasAlert = true ∧
    (runTicks w150 [none, some f200]).2.map scanRanges = [[], [(0, 200)]] ∧
    (runTicks w150 [none, some f200]).1.g_state.acknowledgedOffset = 150 ∧
    (runTicks w150 [none, some f200]).1.g_state.hasAlert = true := by
  decide

/-- Claim C12, amended.  A full rescan asks for at most one range, `[a, S)` with
`a` the `acknowledgedOffset` it holds at that moment, and sets `hasAlert` only
from an occurrence of the marker inside `[a, S)`.  An incremental tick never
looks at `acknowledgedOffset`: the range it asks for starts at `lastOffset`, or
at 0 when the size read is below `lastOffset`.  So on a tick on a file that did
not shrink, from a state with `acknowledgedOffset <= lastOffset`, the range
starts at or above `acknowledgedOffset` and a marker lying wholly below it does
not set `hasAlert`. -/
theorem scan_ranges_and_ack (w : World) (f : OpenFile) (hs : f.sizeOk = true) :
    (∀ r ∈ scanRanges (ResetWatcherAndRescan w (some f)).2,
      r.1 = (ResetWatcherAndRescan w (some f)).1.g_state.acknowledgedOffset ∧
      r.2 = f.content.length) ∧
    ((ResetWatcherAndRescan w (some f)).1.g_state.hasAlert = true →
      MarkerIn f.content (ResetWatcherAndRescan w (some f)).1.g_state.acknowledgedOffset
        f.content.length) ∧
    (∀ r ∈ scanRanges (MonitorLogFileOnce w (some f)).2,
      r.1 = (if f.content.length < w.g_state.lastOffset then 0 else w.g_state.lastOffset) ∧
      r.2 = f.content.length) ∧
    (w.g_state.lastOffset ≤ f.content.length → AckLeLast w →
      (∀ r ∈ scanRanges (MonitorLogFileOnce w (some f)).2,
        w.g_state.acknowledgedOffset ≤ r.1) ∧
      (w.g_state.hasAlert = false →
        (MonitorLogFileOnce w (some f)).1.g_state.hasAlert = true →
        MarkerIn f.content w.g_state.acknowledgedOffset f.content.length)) := by
  have htick : ∀ r ∈ scanRanges (MonitorLogFileOnce w (some f)).2,
      r.1 = (if f.content.length < w.g_state.lastOffset then 0 else w.g_state.lastOffset) ∧
      r.2 = f.content.length := by
    intro r hr
    rw [scanRanges_tick w f hs] at hr
    by_cases hlt : f.content.length < w.g_state.lastOffset
    · rw [if_pos hlt] at hr ⊢
      split at hr
      · simp only [List.mem_singleton] at hr; subst hr; exact ⟨rfl, rfl⟩
      · cases hr
    · rw [if_neg hlt] at hr ⊢
      split at hr
      · simp only [List.mem_singleton] at hr; subst hr; exact ⟨rfl, rfl⟩
      · cases hr
  refine ⟨?_, ?_, htick, ?_⟩
  · intro r hr
    by_cases hpos : 0 < f.content.length
    · rw [scanRanges_rescan w f hs hpos] at hr
      simp only [List.mem_singleton] at hr
      subst hr
      exact ⟨rfl, rfl⟩
    · rw [ResetWatcherAndRescan_nothing w (some f)
        (by intro g hg; cases hg; exact Or.inr (by omega))] at hr
      cases hr
  · intro h
    by_cases hpos : 0 < f.content.length
    · rw [ResetWatcherAndRescan_some w f hs hpos] at h ⊢
      exact scan_true_markerIn f _ _ h
    · rw [ResetWatcherAndRescan_nothing w (some f)
        (by intro g hg; cases hg; exact Or.inr (by omega))] at h
      cases h
  · intro hS hinv
    unfold AckLeLast at hinv
    constructor
    · intro r hr
      have h := (htick r hr).1
      rw [if_neg (by omega)] at h
      omega
    · intro hno h
      rw [MonitorLogFileOnce_not_shrunk w f hs hS] at h
      simp only [hno, Bool.false_or] at h
      exact MarkerIn_mono _ _ _ _ hinv (scan_true_markerIn f _ _ h)

/-- A tick on a grown file from a state with `acknowledgedOffset = lastOffset = 5`:
the range asked for is `[5, 14)`. -/
theorem scan_ranges_and_ack_witness :
    scanRanges (MonitorLogFileOnce
      (AcknowledgeAlert (MonitorLogFileOnce initialWorld (some tick1File)).1).1
      (some tick2File)).2 = [(5, 14)] ∧
    ∀ r ∈ scanRanges (MonitorLogFileOnce
      (AcknowledgeAlert (MonitorLogFileOnce initialWorld (some tick1File)).1).1
      (some tick2File)).2,
      (AcknowledgeAlert (MonitorLogFileOnce initialWorld
        (some tick1File)).1).1.g_state.acknowledgedOffset ≤ r.1 :=
  ⟨by decide,
    ((scan_ranges_and_ack
      (AcknowledgeAlert (MonitorLogFileOnce initialWorld (some tick1File)).1).1
      tick2File rfl).2.2.2 (by decide) (by decide)).1⟩

/-- Claim C13 as stated fails.  After a first tick at size 5, a tick at size 14
whose seek fails reads no byte of `[5, 14)` and still ends with
`lastOffset = 14`; the next tick on the same bytes, with working I/O, asks for
no range and `hasAlert` stays `false` although the marker lies in `[5, 14)`.
A tick whose second read fails has read 4 bytes and ends with
`lastOffset = 14`. -/
theorem failed_scan_advances_counterexample :
    (MonitorLogFileOnce initialWorld (some tick1File)).1.g_state.lastOffset = 5 ∧
    scanAbandoned seekFailFile 5 14 = true ∧ bytesActuallyRead seekFailFile 5 14 = 0 ∧
    (MonitorLogFileOnce (MonitorLogFileOnce initialWorld (some tick1File)).1
      (some seekFailFile)).1.g_state.lastOffset = 14 ∧
    ¬ ((MonitorLogFileOnce (MonitorLogFileOnce initialWorld (some tick1File)).1
      (some seekFailFile)).1.g_state.lastOffset ≤ 5 + bytesActuallyRead seekFailFile 5 14) ∧
    (runTicks initialWorld [some tick1File, some seekFailFile, some tick2File]).2.map
      scanRanges = [[(0, 5)], [(5, 14)], []] ∧
    (runTicks initialWorld [some tick1File, some seekFailFile, some tick2File]).1.g_state.hasAlert
      = false ∧
    MarkerIn tick2File.content 5 14 ∧
    scanAbandoned readFailFile 0 14 = true ∧ bytesActuallyRead readFailFile 0 14 = 4 ∧
    (MonitorLogFileOnce initialWorld (some readFailFile)).1.g_state.lastOffset = 14 := by
  decide

/-! ## Ticks on a growing file: claim C15 -/

theorem le_finalSize (prev : Nat) (sizes : List Nat) :
    List.Chain (fun a b => a ≤ b) prev sizes → prev ≤ finalSize prev sizes := by
  induction sizes generalizing prev with
  | nil => intro _; exact Nat.le_refl _
  | cons s rest ih =>
    intro hc
    rw [List.chain_cons] at hc
    exact Nat.le_trans hc.1 (ih s hc.2)

theorem growthRanges_mem (prev : Nat) (sizes : List Nat) :
    List.Chain (fun a b => a ≤ b) prev sizes →
    ∀ r ∈ (growthRanges prev sizes).flatten,
      prev ≤ r.1 ∧ r.1 < r.2 ∧ r.2 ≤ finalSize prev sizes := by
  induction sizes generalizing prev with
  | nil => intro _ r hr; simp [growthRanges] at hr
  | cons s rest ih =>
    intro hc r hr
    rw [List.chain_cons] at hc
    have hfin : s ≤ finalSize s rest := le_finalSize s rest hc.2
    simp only [growthRanges, List.flatten_cons, List.mem_append] at hr
    rcases hr with hr | hr
    · split at hr
      · simp only [List.mem_singleton] at hr
        subst hr
        simp only [finalSize]
        omega
      · cases hr
    · have := ih s hc.2 r hr
      simp only [finalSize]
      omega

theorem growthRanges_pairwise (prev : Nat) (sizes : List Nat) :
    List.Chain (fun a b => a ≤ b) prev sizes →
    List.Pairwise (fun r1 r2 : Nat × Nat => r1.2 ≤ r2.1) (growthRanges prev sizes).flatten := by
  induction sizes generalizing prev with
  | nil => intro _; simp [growthRanges]
  | cons s rest ih =>
    intro hc
    rw [List.chain_cons] at hc
    simp only [growthRanges, List.flatten_cons]
    rw [List.pairwise_append]
    refine ⟨?_, ih s hc.2, ?_⟩
    · split <;> simp
    · intro a ha b hb
      have hb2 := (growthRanges_mem s rest hc.2 b hb).1
      split at ha
      · simp only [List.mem_singleton] at ha
        subst ha
        exact hb2
      · cases ha

theorem growthRanges_sum (prev : Nat) (sizes : List Nat) :
    List.Chain (fun a b => a ≤ b) prev sizes →
    (((growthRanges prev sizes).flatten.map (fun r => r.2 - r.1)).sum = finalSize prev sizes - prev
      ∧ prev ≤ finalSize prev sizes) := by
  induction sizes generalizing prev with
  | nil => intro _; simp [growthRanges, finalSize]
  | cons s rest ih =>
    intro hc
    rw [List.chain_cons] at hc
    obtain ⟨h1, h2⟩ := ih s hc.2
    simp only [growthRanges, List.flatten_cons, List.map_append, List.sum_append, finalSize]
    rw [h1]
    constructor
    · split
      · simp only [List.map_cons, List.map_nil, List.sum_cons, List.sum_nil]
        omega
      · simp only [List.map_nil, List.sum_nil]
        omega
    · omega

/-- Ticks on a file whose size never decreases ask for the ranges of
`growthRanges` and end with `lastOffset` at the last size seen. -/
theorem runTicks_growth (files : List OpenFile) :
    ∀ (w : World), (∀ f ∈ files, f.sizeOk = true) →
      List.Chain (fun a b => a ≤ b) w.g_state.lastOffset
        (files.map (fun f => f.content.length)) →
      (runTicks w (files.map some)).2.map scanRanges =
        growthRanges w.g_state.lastOffset (files.map (fun f => f.content.length)) ∧
      (runTicks w (files.map some)).1.g_state.lastOffset =
        finalSize w.g_state.lastOffset (files.map (fun f => f.content.length)) := by
  induction files with
  | nil => intro w _ _; exact ⟨rfl, rfl⟩
  | cons f rest ih =>
    intro w hs hc
    simp only [List.map_cons] at hc ⊢
    rw [List.chain_cons] at hc
    have hf := hs f (List.mem_cons_self _ _)
    have hw := MonitorLogFileOnce_not_shrunk w f hf hc.1
    have hlast : (MonitorLogFileOnce w (some f)).1.g_state.lastOffset = f.content.length := by
      rw [hw]
    have hr := scanRanges_tick w f hf
    rw [if_neg (by omega)] at hr
    obtain ⟨h1, h2⟩ := ih (MonitorLogFileOnce w (some f)).1
      (fun g hg => hs g (List.mem_cons_of_mem _ hg)) (by rw [hlast]; exact hc.2)
    rw [hlast] at h1 h2
    simp only [runTicks, List.map_cons, growthRanges, finalSize]
    exact ⟨by rw [hr, h1], h2⟩

/-- Claim C15: for every sequence of incremental ticks on a file whose size never
decreases (sizes `S1 <= ... <= SN` read at the ticks, starting from
`lastOffset = S0 <= S1`), the k-th tick asks for the range `[S(k-1), Sk)` exactly
when `Sk > S(k-1)` and for no range otherwise; each range starts at the
`lastOffset` left by the previous tick and is non-empty, the ranges asked for
are pairwise disjoint (each ends where or before the next starts), the sum of
their lengths is `SN - S0`, and `lastOffset` ends at `SN`. -/
theorem growth_tick_ranges (w : World) (files : List OpenFile)
    (hs : ∀ f ∈ files, f.sizeOk = true)
    (hmono : List.Chain (fun a b => a ≤ b) w.g_state.lastOffset
      (files.map (fun f => f.content.length))) :
    (runTicks w (files.map some)).2.map scanRanges =
      growthRanges w.g_state.lastOffset (files.map (fun f => f.content.length)) ∧
    (runTicks w (files.map some)).1.g_state.lastOffset =
      finalSize w.g_state.lastOffset (files.map (fun f => f.content.length)) ∧
    (∀ r ∈ ((runTicks w (files.map some)).2.map scanRanges).flatten,
      w.g_state.lastOffset ≤ r.1 ∧ r.1 < r.2 ∧
      r.2 ≤ (runTicks w (files.map some)).1.g_state.lastOffset) ∧
    List.Pairwise (fun r1 r2 : Nat × Nat => r1.2 ≤ r2.1)
      ((runTicks w (files.map some)).2.map scanRanges).flatten ∧
    ((((runTicks w (files.map some)).2.map scanRanges).flatten.map
        (fun r => r.2 - r.1)).sum =
      (runTicks w (files.map some)).1.g_state.lastOffset - w.g_state.lastOffset) := by
  obtain ⟨h1, h2⟩ := runTicks_growth files w hs hmono
  rw [h1, h2]
  exact ⟨rfl, rfl, growthRanges_mem _ _ hmono, growthRanges_pairwise _ _ hmono,
    (growthRanges_sum _ _ hmono).1⟩

/-- Four ticks that see the sizes 5, 5, 14, 14 starting from `lastOffset = 0`. -/
theorem growth_tick_ranges_witness :
    (runTicks initialWorld
      ([tick1File, tick1File, tick2File, tick2File].map some)).2.map scanRanges =
      [[(0, 5)], [], [(5, 14)], []] ∧
    ((((runTicks initialWorld
      ([tick1File, tick1File, tick2File, tick2File].map some)).2.map scanRanges).flatten.map
        (fun r => r.2 - r.1)).sum =
      (runTicks initialWorld
        ([tick1File, tick1File, tick2File, tick2File].map some)).1.g_state.lastOffset
        - initialWorld.g_state.lastOffset) :=
  have h := growth_tick_ranges initialWorld [tick1File, tick1File, tick2File, tick2File]
    (by decide)
    (List.Chain.cons (by decide) (List.Chain.cons (by decide)
      (List.Chain.cons (by decide) (List.Chain.cons (by decide) List.Chain.nil))))
  ⟨h.1.trans (by decide), h.2.2.2.2⟩

/-! ## Running an entry point twice: claim C16 -/

/-- A tick on a file whose size was read leaves `lastOffset` at that size. -/
theorem MonitorLogFileOnce_lastOffset (w : World) (f : OpenFile) (hs : f.sizeOk = true) :
    (MonitorLogFileOnce w (some f)).1.g_state.lastOffset = f.content.length := by
  by_cases hS : f.content.length < w.g_state.lastOffset
  · rw [MonitorLogFileOnce_shrunk w f hs hS]
  · rw [MonitorLogFileOnce_not_shrunk w f hs (by omega)]

/-- Claim C16: on an unchanged file condition (the file missing, or present with
the same content and the same outcomes of the size query, the seek and the
reads), running `ResetWatcherAndRescan` twice leaves the state (`lastOffset`,
`acknowledgedOffset`, `hasAlert`, the blink flag, and the persisted
`ack_offset`) that running it once leaves, and so does running
`MonitorLogFileOnce` twice, also when the first tick is the one that detects a
truncation: that tick already rescans the file and leaves `lastOffset` at its
size, so the second tick issues no call. -/
theorem entry_points_idempotent (w : World) (file : Option OpenFile) :
    (ResetWatcherAndRescan (ResetWatcherAndRescan w file).1 file).1 =
      (ResetWatcherAndRescan w file).1 ∧
    (MonitorLogFileOnce (MonitorLogFileOnce w file).1 file).1 =
      (MonitorLogFileOnce w file).1 ∧
    (∀ f, file = some f → f.sizeOk = true →
      MonitorLogFileOnce (MonitorLogFileOnce w file).1 file =
        ((MonitorLogFileOnce w file).1, [])) := by
  refine ⟨?_, ?_, ?_⟩
  · cases file with
    | none =>
      rw [ResetWatcherAndRescan_nothing w none (by intro f hf; cases hf),
        ResetWatcherAndRescan_nothing _ none (by intro f hf; cases hf)]
    | some f =>
      by_cases hc : f.sizeOk = true ∧ 0 < f.content.length
      · rw [ResetWatcherAndRescan_some _ f hc.1 hc.2, ResetWatcherAndRescan_some w f hc.1 hc.2]
        simp only
        have h1 : ¬ ((if w.g_state.acknowledgedOffset > f.content.length then 0
            else w.g_state.acknowledgedOffset) > f.content.length) := by
          split <;> omega
        rw [if_neg h1, if_neg h1]
      · have hn : ∀ g, some f = some g → g.sizeOk = false ∨ g.content.length = 0 := by
          intro g hg
          cases hg
          cases hs : f.sizeOk with
          | false => exact Or.inl rfl
          | true => exact Or.inr (Nat.eq_zero_of_not_pos (fun h => hc ⟨hs, h⟩))
        rw [ResetWatcherAndRescan_nothing w (some f) hn,
          ResetWatcherAndRescan_nothing _ (some f) hn]
  · cases file with
    | none =>
      rw [MonitorLogFileOnce_none, MonitorLogFileOnce_none]
      simp
    | some f =>
      cases hs : f.sizeOk with
      | false =>
        have h : ∀ v : World, MonitorLogFileOnce v (some f) = (v, []) := by
          intro v; simp [MonitorLogFileOnce, hs]
        rw [h, h]
      | true =>
        rw [MonitorLogFileOnce_unchanged _ f hs (MonitorLogFileOnce_lastOffset w f hs).symm]
  · intro f hf hs
    subst hf
    exact MonitorLogFileOnce_unchanged _ f hs (MonitorLogFileOnce_lastOffset w f hs).symm

/-! ## The blink flag: claim C17 -/

theorem ResetWatcherAndRescan_blink (w : World) (file : Option OpenFile) :
    (ResetWatcherAndRescan w file).1.g_state.blinkShowAlertIcon = true := by
  cases file with
  | none => rw [ResetWatcherAndRescan_nothing w none (by intro f hf; cases hf)]
  | some f =>
    by_cases hc : f.sizeOk = true ∧ 0 < f.content.length
    · rw [ResetWatcherAndRescan_some w f hc.1 hc.2]
    · have hn : ∀ g, some f = some g → g.sizeOk = false ∨ g.content.length = 0 := by
        intro g hg
        cases hg
        cases hs : f.sizeOk with
        | false => exact Or.inl rfl
        | true => exact Or.inr (Nat.eq_zero_of_not_pos (fun h => hc ⟨hs, h⟩))
      rw [ResetWatcherAndRescan_nothing w (some f) hn]

theorem OnBlinkTimer_fst (w : World) :
    (OnBlinkTimer w).1 =
      { g_state :=
          { acknowledgedOffset := w.g_state.acknowledgedOffset,
            lastOffset := w.g_state.lastOffset,
            hasAlert := w.g_state.hasAlert,
            blinkShowAlertIcon :=
              if w.g_state.hasAlert then !w.g_state.blinkShowAlertIcon else true },
        ack_offset := w.ack_offset } := by
  unfold OnBlinkTimer
  cases hh : w.g_state.hasAlert <;> cases hb : w.g_state.blinkShowAlertIcon <;>
    simp [hh, hb]
  rw [← hh, ← hb]

/-- Every operation keeps the blink flag set while no alert is pending. -/
theorem applyOp_blinkRests (w : World) (op : Op) (h : BlinkRests w) :
    BlinkRests (applyOp w op).1 := by
  unfold BlinkRests at h ⊢
  cases op with
  | rescan file => intro _; exact ResetWatcherAndRescan_blink w file
  | tick file =>
    simp only [applyOp]
    cases file with
    | none =>
      rw [MonitorLogFileOnce_none]
      simp only
      intro _
      cases hh : w.g_state.hasAlert with
      | false => simpa [hh] using h hh
      | true => simp
    | some f =>
      cases hs : f.sizeOk with
      | false =>
        have hw : MonitorLogFileOnce w (some f) = (w, []) := by
          simp [MonitorLogFileOnce, hs]
        rw [hw]; exact h
      | true =>
        by_cases hS : f.content.length < w.g_state.lastOffset
        · rw [MonitorLogFileOnce_shrunk w f hs hS]
          intro _; rfl
        · rw [MonitorLogFileOnce_not_shrunk w f hs (by omega)]
          simp only
          intro hno
          simp only [Bool.or_eq_false_iff] at hno
          rw [if_neg (by simp [hno.2])]
          exact h hno.1
  | acknowledge => intro _; rfl
  | choosePath chosen =>
    cases chosen with
    | none => exact h
    | some file => intro _; exact ResetWatcherAndRescan_blink _ file
  | blink =>
    simp only [applyOp]
    rw [OnBlinkTimer_fst]
    simp only
    intro hno
    simp [hno]

theorem runOps_blinkRests (ops : List Op) :
    ∀ w : World, BlinkRests w → BlinkRests (runOps w ops) := by
  induction ops with
  | nil => intro w h; exact h
  | cons op rest ih => intro w h; exact ih _ (applyOp_blinkRests w op h)

/-- Claim C17: the blink-timer step never changes `lastOffset`,
`acknowledgedOffset`, `hasAlert` or the persisted `ack_offset`; in every state
reached from an initial state with `hasAlert = false` and
`blinkShowAlertIcon = true` by any sequence of full rescans, incremental ticks,
acknowledgments, path changes and blink-timer steps, `hasAlert = false` implies
`blinkShowAlertIcon = true`; so there a blink-timer step with no alert pending
changes nothing and issues no call, the step changes the blink flag only when
`hasAlert` is true, and the alert icon is chosen only when `hasAlert` is true. -/
theorem blink_is_cosmetic (w0 : World) (ops : List Op) (w : World)
    (hinit : w0.g_state.hasAlert = false ∧ w0.g_state.blinkShowAlertIcon = true) :
    ((OnBlinkTimer w).1.g_state.lastOffset = w.g_state.lastOffset ∧
     (OnBlinkTimer w).1.g_state.acknowledgedOffset = w.g_state.acknowledgedOffset ∧
     (OnBlinkTimer w).1.g_state.hasAlert = w.g_state.hasAlert ∧
     (OnBlinkTimer w).1.ack_offset = w.ack_offset) ∧
    ((runOps w0 ops).g_state.hasAlert = false →
      (runOps w0 ops).g_state.blinkShowAlertIcon = true) ∧
    ((runOps w0 ops).g_state.hasAlert = false →
      OnBlinkTimer (runOps w0 ops) = (runOps w0 ops, [])) ∧
    ((OnBlinkTimer (runOps w0 ops)).1.g_state.blinkShowAlertIcon
        ≠ (runOps w0 ops).g_state.blinkShowAlertIcon →
      (runOps w0 ops).g_state.hasAlert = true) ∧
    (∀ s : AppState, alertIconShown s = true → s.hasAlert = true) := by
  have hinv : BlinkRests (runOps w0 ops) := runOps_blinkRests ops w0 (fun _ => hinit.2)
  unfold BlinkRests at hinv
  refine ⟨?_, hinv, ?_, ?_, ?_⟩
  · rw [OnBlinkTimer_fst]
    exact ⟨rfl, rfl, rfl, rfl⟩
  · intro hno
    unfold OnBlinkTimer
    simp [hno, hinv hno]
  · intro hne
    cases hh : (runOps w0 ops).g_state.hasAlert with
    | true => rfl
    | false =>
      exfalso
      apply hne
      rw [OnBlinkTimer_fst]
      simp [hh, hinv hh]
  · intro s hs
    unfold alertIconShown at hs
    simp only [Bool.and_eq_true] at hs
    exact hs.1

/-- A run from `initialWorld`: full rescan, a tick that raises the alert, a
blink step (the flag goes off), the acknowledgment (the flag is set again), and
a blink step that changes nothing. -/
theorem blink_is_cosmetic_witness :
    (runOps initialWorld [Op.rescan (some tick1File), Op.tick (some tick2File),
      Op.blink]).g_state =
      { acknowledgedOffset := 0, lastOffset := 14, hasAlert := true,
        blinkShowAlertIcon := false } ∧
    (runOps initialWorld [Op.rescan (some tick1File), Op.tick (some tick2File),
      Op.blink, Op.acknowledge]).g_state.hasAlert = false ∧
    (runOps initialWorld [Op.rescan (some tick1File), Op.tick (some tick2File),
      Op.blink, Op.acknowledge]).g_state.blinkShowAlertIcon = true :=
  ⟨by decide, by decide,
    (blink_is_cosmetic initialWorld
      [Op.rescan (some tick1File), Op.tick (some tick2File), Op.blink, Op.acknowledge]
      initialWorld ⟨rfl, rfl⟩).2.1 (by decide)⟩

/-! ## A tick whose scan is abandoned: claim C13 -/

/-- Claim C13, amended.  On a tick in which the file opens with size
`S > lastOffset` and the scan of `[lastOffset, S)` is abandoned (the seek fails,
or a read fails or delivers no byte), `hasAlert` is not set by that tick (it
keeps its prior value) and `acknowledgedOffset` is unchanged, but `lastOffset`
is `S` afterwards, whatever was read.  So the next tick, if it reads a size
`>= S`, asks for no range that starts below `S`; and the same holds for every
tick of any run of ticks that follows in which the file is opened and the sizes
read never decrease (`S <= S1 <= S2 <= ...`): none of them scans the unread
bytes of `[lastOffset, S)` again. -/
theorem failed_scan_tick (w : World) (f : OpenFile) (hs : f.sizeOk = true)
    (hS : w.g_state.lastOffset < f.content.length)
    (hab : scanAbandoned f w.g_state.lastOffset f.content.length = true) :
    (MonitorLogFileOnce w (some f)).1.g_state.hasAlert = w.g_state.hasAlert ∧
    (MonitorLogFileOnce w (some f)).1.g_state.acknowledgedOffset
      = w.g_state.acknowledgedOffset ∧
    (MonitorLogFileOnce w (some f)).1.g_state.lastOffset = f.content.length ∧
    (∀ g : OpenFile, g.sizeOk = true → f.content.length ≤ g.content.length →
      ∀ r ∈ scanRanges (MonitorLogFileOnce (MonitorLogFileOnce w (some f)).1 (some g)).2,
        f.content.length ≤ r.1) ∧
    (∀ files : List OpenFile, (∀ g ∈ files, g.sizeOk = true) →
      List.Chain (fun a b => a ≤ b) f.content.length
        (files.map (fun g => g.content.length)) →
      ∀ r ∈ ((runTicks (MonitorLogFileOnce w (some f)).1
          (files.map some)).2.map scanRanges).flatten,
        f.content.length ≤ r.1) := by
  have hfalse := scanAbandoned_false f _ _ hab
  have hw := MonitorLogFileOnce_not_shrunk w f hs (by omega)
  have hlast := MonitorLogFileOnce_lastOffset w f hs
  refine ⟨?_, ?_, ?_, ?_, ?_⟩
  · rw [hw]; simp [hfalse]
  · rw [hw]
  · rw [hw]
  · intro g hg hle r hr
    rw [scanRanges_tick _ g hg, hw] at hr
    simp only at hr
    rw [if_neg (by omega)] at hr
    split at hr
    · simp only [List.mem_singleton] at hr; subst hr; exact Nat.le_refl _
    · cases hr
  · intro files hfs hchain r hr
    have hc : List.Chain (fun a b => a ≤ b)
        (MonitorLogFileOnce w (some f)).1.g_state.lastOffset
        (files.map (fun g => g.content.length)) := by
      rw [hlast]; exact hchain
    rw [(runTicks_growth files _ hfs hc).1] at hr
    have := (growthRanges_mem _ _ hc r hr).1
    rw [hlast] at this
    exact this

/-- The tick at size 14 whose seek fails, after the tick at size 5; two more
ticks at size 14 and one at size 600 ask for `[14, 600)` only. -/
theorem failed_scan_tick_witness :
    (MonitorLogFileOnce (MonitorLogFileOnce initialWorld (some tick1File)).1
      (some seekFailFile)).1.g_state.hasAlert = false ∧
    (MonitorLogFileOnce (MonitorLogFileOnce initialWorld (some tick1File)).1
      (some seekFailFile)).1.g_state.lastOffset = 14 ∧
    (runTicks (MonitorLogFileOnce (MonitorLogFileOnce initialWorld (some tick1File)).1
      (some seekFailFile)).1
      ([tick2File, tick2File, f600].map some)).2.map scanRanges = [[], [], [(14, 600)]] ∧
    ∀ r ∈ ((runTicks (MonitorLogFileOnce (MonitorLogFileOnce initialWorld
        (some tick1File)).1 (some seekFailFile)).1
        ([tick2File, tick2File, f600].map some)).2.map scanRanges).flatten,
      seekFailFile.content.length ≤ r.1 :=
  have h := failed_scan_tick (MonitorLogFileOnce initialWorld (some tick1File)).1
    seekFailFile rfl (by decide) (by decide)
  ⟨h.1.trans (by decide), h.2.2.1.trans (by decide), by decide,
    h.2.2.2.2 [tick2File, tick2File, f600] (by decide)
      (List.Chain.cons (by decide) (List.Chain.cons (by decide)
        (List.Chain.cons (by decide) List.Chain.nil)))⟩

end BackrestTrayWatcher
